import Mathlib

/-!
# Certimate provider orchestration: a verification development

Shallow embedding of

* `internal/pkg/core/uploader/providers/1panel-ssl/1panel_ssl.go`
  (`Upload`, `findCertIfExists`),
* `internal/pkg/core/deployer/providers/aliyun-cas-deploy/aliyun_cas_deploy.go`
  (`Deploy`),
* `internal/applicant/{aws,cloudflare,godaddy,powerdns}.go` (`Apply`).

Conventions of the embedding.

* A Go `(value, error)` pair is an `Except String _`; the string is the text of
  `err.Error()`.  `fmt.Errorf("m: %w", err)` and `xerrors.Wrap(err, "m")` both render
  as `"m: " ++ err`.
* Vendor SDK calls are fields of a client record that threads an explicit vendor
  state; every call is appended to a log so that calls can be counted.
* `context.Context` is a script `Nat → Option String`: the answer of `ctx.Err()` at
  the n-th check of the context made by the code (`none` while it is not done).
* An unbounded Go `for` loop takes a fuel argument and returns `none` when the fuel
  runs out; results are proved for every sufficiently large fuel.
* Go strings are modelled by `String` (valid UTF-8 text).
* Logger calls have no effect on results and are left out.
-/

set_option autoImplicit false

/-! ## Go library functions used by the code -/

namespace GoLib

/-- Go `unicode.IsSpace`: the Latin-1 spaces `\t \n \v \f \r`, space, U+0085, U+00A0,
and the characters of Unicode property White_Space above Latin-1. -/
def isSpace (c : Char) : Bool :=
  let n := c.toNat
  (9 ≤ n && n ≤ 13) || n == 32 || n == 0x85 || n == 0xA0 || n == 0x1680 ||
  (0x2000 ≤ n && n ≤ 0x200A) || n == 0x2028 || n == 0x2029 || n == 0x202F ||
  n == 0x205F || n == 0x3000

/-- Go `strings.TrimSpace` on the characters of a string: leading white space is
removed, then trailing white space. -/
def trimSpaceChars (cs : List Char) : List Char :=
  ((cs.dropWhile isSpace).reverse.dropWhile isSpace).reverse

/-- Go `strings.TrimSpace`. -/
def TrimSpace (s : String) : String := ⟨trimSpaceChars s.data⟩

/-- The value of an `int32` after an arithmetic result `x` wraps around. -/
def wrapInt32 (x : Int) : Int := (x + 2147483648) % 4294967296 - 2147483648

/-- Rendering of an integer by the `%d` verb of `fmt.Sprintf`. -/
def fmtD (n : Int) : String := toString n

end GoLib

/-! ## The uploader package -/

namespace Uploader

/-- The `uploader.UploadResult` returned to the caller of an `Upload`. -/
structure UploadResult where
  CertId : String
  CertName : String
  deriving DecidableEq, Repr

end Uploader

/-! ## 1Panel SSL uploader -/

namespace OnePanel

open GoLib Uploader

/-- One element of `searchWebsiteSSLResp.Data.Items`; only the fields the uploader reads. -/
structure SslItem where
  ID : Int
  PEM : String
  PrivateKey : String
  Description : String
  deriving DecidableEq, Repr

/-- The `onepanelsdk.SearchWebsiteSSLRequest`. -/
structure SearchWebsiteSSLRequest where
  Page : Int
  PageSize : Int
  deriving DecidableEq, Repr

/-- The `onepanelsdk.UploadWebsiteSSLRequest`. -/
structure UploadWebsiteSSLRequest where
  Type_ : String
  Description : String
  Certificate : String
  PrivateKey : String
  deriving DecidableEq, Repr

/-- What the uploader reads of an `UploadWebsiteSSL` response: `GetCode()` and
`GetMessage()`. -/
structure UploadWebsiteSSLResponse where
  Code : Int
  Message : String
  deriving DecidableEq, Repr

/-- A call issued on the SDK client. -/
inductive Call where
  | search (req : SearchWebsiteSSLRequest)
  | upload (req : UploadWebsiteSSLRequest)
  deriving DecidableEq, Repr

/-- The `onepanelsdk.Client` as seen by the uploader: two calls, each answering from
and updating a vendor state. -/
structure Client (σ : Type) where
  SearchWebsiteSSL : σ → SearchWebsiteSSLRequest → Except String (List SslItem) × σ
  UploadWebsiteSSL : σ → UploadWebsiteSSLRequest → Except String UploadWebsiteSSLResponse × σ

/-- Everything outside the uploader that a run reads or changes: the vendor state, how
many times the context has been consulted, and the log of SDK calls (oldest first). -/
structure World (σ : Type) where
  vendor : σ
  polls : Nat
  calls : List Call

/-- Is the call an `UploadWebsiteSSL` (create) call? -/
def Call.isUpload : Call → Bool
  | .upload _ => true
  | .search _ => false

/-- Is the call a `SearchWebsiteSSL` (page) call? -/
def Call.isSearch : Call → Bool
  | .search _ => true
  | .upload _ => false

/-- Number of `UploadWebsiteSSL` calls in a log. -/
def uploadCalls (l : List Call) : Nat := (l.filter Call.isUpload).length

/-- Number of `SearchWebsiteSSL` calls in a log. -/
def searchCalls (l : List Call) : Nat := (l.filter Call.isSearch).length

/-- The comparison of lines 118-119: both PEM fields equal after `strings.TrimSpace`. -/
def sameCert (certPEM privkeyPEM : String) (sslItem : SslItem) : Bool :=
  TrimSpace sslItem.PEM == TrimSpace certPEM &&
    TrimSpace sslItem.PrivateKey == TrimSpace privkeyPEM

/-- The result built at lines 121-124 from the matching item. -/
def toResult (sslItem : SslItem) : UploadResult :=
  { CertId := fmtD sslItem.ID, CertName := sslItem.Description }

/-- The loop of `findCertIfExists` (lines 100-133), started at page number
`searchWebsiteSSLPageNumber` (an `int32`), with page size 100. -/
def findLoop {σ : Type} (c : Client σ) (ctx : Nat → Option String)
    (certPEM privkeyPEM : String) :
    Nat → Int → World σ → Option (Except String (Option UploadResult) × World σ)
  | 0, _, _ => none
  | fuel + 1, searchWebsiteSSLPageNumber, w =>
    match ctx w.polls with
    | some e => some (.error e, { w with polls := w.polls + 1 })
    | none =>
      let searchWebsiteSSLReq : SearchWebsiteSSLRequest :=
        { Page := searchWebsiteSSLPageNumber, PageSize := 100 }
      let r := c.SearchWebsiteSSL w.vendor searchWebsiteSSLReq
      let w1 : World σ :=
        { vendor := r.2, polls := w.polls + 1, calls := w.calls ++ [.search searchWebsiteSSLReq] }
      match r.1 with
      | .error err =>
        some (.error ("failed to execute sdk request '1panel.SearchWebsiteSSL': " ++ err), w1)
      | .ok items =>
        match items.find? (sameCert certPEM privkeyPEM) with
        | some sslItem => some (.ok (some (toResult sslItem)), w1)
        | none =>
          if items.length < 100 then some (.ok none, w1)
          else findLoop c ctx certPEM privkeyPEM fuel (wrapInt32 (searchWebsiteSSLPageNumber + 1)) w1

/-- `findCertIfExists` (lines 97-136): `.ok none` is the Go result `nil, nil`. -/
def findCertIfExists {σ : Type} (c : Client σ) (ctx : Nat → Option String) (fuel : Nat)
    (certPEM privkeyPEM : String) (w : World σ) :
    Option (Except String (Option UploadResult) × World σ) :=
  findLoop c ctx certPEM privkeyPEM fuel 1 w

/-- `Upload` (lines 62-95).  `nowMilli` is the value of `time.Now().UnixMilli()`. -/
def Upload {σ : Type} (c : Client σ) (ctx : Nat → Option String) (nowMilli : Int) (fuel : Nat)
    (certPEM privkeyPEM : String) (w : World σ) :
    Option (Except String UploadResult × World σ) :=
  match findCertIfExists c ctx fuel certPEM privkeyPEM w with
  | none => none
  | some (.error err, w1) => some (.error err, w1)
  | some (.ok (some res), w1) => some (.ok res, w1)
  | some (.ok none, w1) =>
    let certName := "certimate-" ++ fmtD nowMilli
    let uploadWebsiteSSLReq : UploadWebsiteSSLRequest :=
      { Type_ := "paste", Description := certName, Certificate := certPEM, PrivateKey := privkeyPEM }
    let r := c.UploadWebsiteSSL w1.vendor uploadWebsiteSSLReq
    let w2 : World σ :=
      { vendor := r.2, polls := w1.polls, calls := w1.calls ++ [.upload uploadWebsiteSSLReq] }
    match r.1 with
    | .error err =>
      some (.error ("failed to execute sdk request '1panel.UploadWebsiteSSL': " ++ err), w2)
    | .ok uploadWebsiteSSLResp =>
      match findCertIfExists c ctx fuel certPEM privkeyPEM w2 with
      | none => none
      | some (.error err, w3) => some (.error err, w3)
      | some (.ok none, w3) =>
        some (.error ("no ssl certificate found, may be upload failed (code: " ++
          fmtD uploadWebsiteSSLResp.Code ++ ", message: " ++ uploadWebsiteSSLResp.Message ++ ")"), w3)
      | some (.ok (some res), w3) => some (.ok res, w3)

/-- Modelled from the spec: the vendor store behind the 1Panel SDK client, which is not
part of the sources.  The store is a finite list of records; `SearchWebsiteSSL` serves
page `Page` (counted from 1) of `PageSize` records and rejects a page number below 1;
a successful `UploadWebsiteSSL` appends a record holding the uploaded PEMs, with an
identifier chosen by the vendor (`assignId`). -/
def storeClient (assignId : List SslItem → Int) : Client (List SslItem) where
  SearchWebsiteSSL store req :=
    (if 1 ≤ req.Page then
        .ok ((store.drop ((req.Page - 1).toNat * req.PageSize.toNat)).take req.PageSize.toNat)
      else .error "invalid page", store)
  UploadWebsiteSSL store req :=
    (.ok { Code := 200, Message := "" },
      store ++ [{ ID := assignId store, PEM := req.Certificate,
                  PrivateKey := req.PrivateKey, Description := req.Description }])

/-- A context that is never cancelled. -/
def background : Nat → Option String := fun _ => none

/-- A vendor whose create call reports success (code 200, message `OK`) but whose
list never shows a record. -/
def forgetful : Client Unit where
  SearchWebsiteSSL := fun _ _ => (.ok [], ())
  UploadWebsiteSSL := fun _ _ => (.ok { Code := 200, Message := "OK" }, ())

/-- The page calls numbered `first`, `first + 1`, ... (`n` of them), each of size 100. -/
def pageCalls (first n : Nat) : List Call :=
  (List.range' first n).map (fun p => Call.search { Page := (p : Int), PageSize := 100 })

/-- Two strings differ only in surrounding white space: they are one common text with
white space (possibly none) put before and after it. -/
def DifferOnlyInSurroundingSpace (a b : String) : Prop :=
  ∃ core l₁ r₁ l₂ r₂ : List Char,
    (∀ c ∈ l₁, isSpace c = true) ∧ (∀ c ∈ r₁, isSpace c = true) ∧
    (∀ c ∈ l₂, isSpace c = true) ∧ (∀ c ∈ r₂, isSpace c = true) ∧
    a.data = l₁ ++ core ++ r₁ ∧ b.data = l₂ ++ core ++ r₂

/-- The least number of pages of `p` records that hold `n` records, `ceil(n / p)`. -/
def ceilDiv (n p : Nat) : Nat := (n + p - 1) / p

end OnePanel

/-! ## Aliyun CAS deployer -/

namespace AliyunCASDeploy

open GoLib

/-- The `AliyunCASDeployDeployerConfig`. -/
structure AliyunCASDeployDeployerConfig where
  AccessKeyId : String
  AccessKeySecret : String
  Region : String
  ResourceIds : List String
  ContactIds : List String
  deriving DecidableEq, Repr

/-- The `deployer.DeployResult`: the code returns the empty struct. -/
structure DeployResult where
  deriving DecidableEq, Repr

/-- The `aliyunCas.CreateDeploymentJobRequest`. -/
structure CreateDeploymentJobRequest where
  Name : String
  JobType : String
  CertIds : String
  ResourceIds : String
  ContactIds : String
  deriving DecidableEq, Repr

/-- What `Deploy` does to the outside, in order: calls of the uploader and of the SDK
client, and sleeps. -/
inductive Event where
  | upload (certPem privkeyPem : String)
  | listContact (showSize currentPage : Int)
  | createDeploymentJob (req : CreateDeploymentJobRequest)
  | describeDeploymentJob (jobId : Option Int)
  | sleep (seconds : Nat)
  deriving DecidableEq, Repr

/-- The collaborators of one `Deploy` run.

* `Upload`: `d.sslUploader.Upload`, an uploader of another package, returning the
  `uploader.UploadResult` (not nil when there is no error) or an error.
* `ListContact`: the contact identifiers of `listContactResp.Body.ContactList`, each as
  rendered by `fmt.Sprintf("%d", ...)`.
* `CreateDeploymentJob`: `createDeploymentJobResp.Body.JobId` (a pointer, so optional).
* `DescribeDeploymentJob jobId n`: `describeDeploymentJobResp.Body.Status` (a pointer,
  so optional) as answered to the call that follows `n` earlier calls.
* `ctxErr n`: `ctx.Err()` at the top of loop iteration `n` (counted from 0); a context
  error does not change once it is set, so the two reads of lines 124-125 agree.
* `nowMilli`: `time.Now().UnixMilli()`. -/
structure Env where
  Upload : String → String → Except String Uploader.UploadResult
  ListContact : Except String (List String)
  CreateDeploymentJob : CreateDeploymentJobRequest → Except String (Option Int)
  DescribeDeploymentJob : Option Int → Nat → Except String (Option String)
  ctxErr : Nat → Option String
  nowMilli : Int

/-- The polling loop of `Deploy` (lines 123-147); `i` counts the iterations done. -/
def pollLoop (env : Env) (jobId : Option Int) :
    Nat → Nat → List Event → Option (Except String DeployResult × List Event)
  | 0, _, _ => none
  | fuel + 1, i, tr =>
    match env.ctxErr i with
    | some e => some (.error e, tr)
    | none =>
      let tr1 := tr ++ [Event.describeDeploymentJob jobId]
      match env.DescribeDeploymentJob jobId i with
      | .error err =>
        some (.error ("failed to execute sdk request 'cas.DescribeDeploymentJob': " ++ err), tr1)
      | .ok status =>
        if status = none ∨ status = some "editing" then
          some (.error "部署任务状态异常", tr1)
        else if status = some "success" ∨ status = some "error" then
          some (.ok {}, tr1)
        else
          pollLoop env jobId fuel (i + 1) (tr1 ++ [Event.sleep 5])

/-- `Deploy` (lines 75-150): the result and the events in order. -/
def Deploy (env : Env) (config : AliyunCASDeployDeployerConfig) (fuel : Nat)
    (certPem privkeyPem : String) : Option (Except String DeployResult × List Event) :=
  if config.ResourceIds.length = 0 then
    some (.error "config `resourceIds` is required", [])
  else
    let tr0 := [Event.upload certPem privkeyPem]
    match env.Upload certPem privkeyPem with
    | .error err => some (.error ("failed to upload certificate file: " ++ err), tr0)
    | .ok upres =>
      let contacts : Except String (List String) × List Event :=
        if config.ContactIds.length = 0 then
          match env.ListContact with
          | .error err =>
            (.error ("failed to execute sdk request 'cas.ListContact': " ++ err),
              tr0 ++ [Event.listContact 1 1])
          | .ok contactList =>
            (.ok (match contactList with
                  | [] => config.ContactIds
                  | contact :: _ => [contact]),
              tr0 ++ [Event.listContact 1 1])
        else (.ok config.ContactIds, tr0)
      match contacts with
      | (.error err, tr1) => some (.error err, tr1)
      | (.ok contactIds, tr1) =>
        let createDeploymentJobReq : CreateDeploymentJobRequest :=
          { Name := "certimate-" ++ fmtD env.nowMilli,
            JobType := "user",
            CertIds := upres.CertId,
            ResourceIds := String.intercalate "," config.ResourceIds,
            ContactIds := String.intercalate "," contactIds }
        let tr2 := tr1 ++ [Event.createDeploymentJob createDeploymentJobReq]
        match env.CreateDeploymentJob createDeploymentJobReq with
        | .error err =>
          some (.error ("failed to execute sdk request 'cas.CreateDeploymentJob': " ++ err), tr2)
        | .ok jobId => pollLoop env jobId fuel 0 tr2

/-- Is the event a `DescribeDeploymentJob` call? -/
def Event.isDescribe : Event → Bool
  | .describeDeploymentJob _ => true
  | _ => false

/-- Is the event a sleep? -/
def Event.isSleep : Event → Bool
  | .sleep _ => true
  | _ => false

/-- Number of `DescribeDeploymentJob` calls among the events. -/
def describeCalls (tr : List Event) : Nat := (tr.filter Event.isDescribe).length

/-- Number of sleeps among the events. -/
def sleeps (tr : List Event) : Nat := (tr.filter Event.isSleep).length

/-- The statuses on which the loop sleeps and polls again: a status that is present and
is none of `"editing"`, `"success"`, `"error"`. -/
def inProgress (status : Option String) : Bool :=
  status != none && status != some "editing" && status != some "success" &&
    status != some "error"

/-- The events of `k` loop iterations that each read an in-progress status: a
`DescribeDeploymentJob` call followed by a sleep of 5 seconds, `k` times. -/
def pollEvents (jobId : Option Int) : Nat → List Event
  | 0 => []
  | k + 1 => Event.describeDeploymentJob jobId :: Event.sleep 5 :: pollEvents jobId k

/-- A scripted vendor: the uploader and `CreateDeploymentJob` succeed (job 42), the
account has one contact, the job status reads `"pending"` on the first `k` calls and
`final` afterwards, and the context is cancelled from loop iteration `cancelAt` on
(never, when `cancelAt` is `none`). -/
def scripted (k : Nat) (final : String) (cancelAt : Option Nat) : Env where
  Upload := fun _ _ => .ok { CertId := "9001", CertName := "certimate-1" }
  ListContact := .ok ["1001"]
  CreateDeploymentJob := fun _ => .ok (some 42)
  DescribeDeploymentJob := fun _ n => .ok (some (if n < k then "pending" else final))
  ctxErr := fun n =>
    match cancelAt with
    | some m => if m ≤ n then some "context canceled" else none
    | none => none
  nowMilli := 1700000000000

/-- A configuration with one target resource and no configured contact. -/
def oneResource : AliyunCASDeployDeployerConfig :=
  { AccessKeyId := "id", AccessKeySecret := "secret", Region := "",
    ResourceIds := ["res-1"], ContactIds := [] }

/-- A configuration with one target resource and one configured contact, so that
`ListContact` is not consulted. -/
def oneContact : AliyunCASDeployDeployerConfig :=
  { AccessKeyId := "id", AccessKeySecret := "secret", Region := "",
    ResourceIds := ["res-1"], ContactIds := ["1001"] }

/-- The same configuration without any target resource. -/
def noResource : AliyunCASDeployDeployerConfig :=
  { AccessKeyId := "id", AccessKeySecret := "secret", Region := "",
    ResourceIds := [], ContactIds := [] }

end AliyunCASDeploy

/-! ## DNS applicants -/

namespace Applicant

open GoLib

/-- The value of an `int64` after an arithmetic result `x` wraps around. -/
def wrapInt64 (x : Int) : Int :=
  (x + 9223372036854775808) % 18446744073709551616 - 9223372036854775808

/-- `time.Duration(timeout) * time.Second`, in nanoseconds. -/
def seconds (timeout : Int) : Int := wrapInt64 (timeout * 1000000000)

/-- The fields of `ApplyOption` that the four `Apply` methods read. -/
structure ApplyOption where
  Access : String
  Timeout : Int
  deriving DecidableEq, Repr

/-- The `domain.AwsAccess`, as far as `Apply` reads it. -/
structure AwsAccess where
  AccessKeyId : String
  SecretAccessKey : String
  Region : String
  HostedZoneId : String
  deriving DecidableEq, Repr

/-- The `domain.CloudflareAccess`, as far as `Apply` reads it. -/
structure CloudflareAccess where
  DnsApiToken : String
  deriving DecidableEq, Repr

/-- The `domain.GodaddyAccess`, as far as `Apply` reads it. -/
structure GodaddyAccess where
  ApiKey : String
  ApiSecret : String
  deriving DecidableEq, Repr

/-- The `domain.PdnsAccess`, as far as `Apply` reads it. -/
structure PdnsAccess where
  ApiUrl : String
  ApiKey : String
  deriving DecidableEq, Repr

/-- The fields of `route53.Config` that `Apply` sets. -/
structure Route53Config where
  AccessKeyID : String
  SecretAccessKey : String
  Region : String
  HostedZoneID : String
  PropagationTimeout : Int
  deriving DecidableEq, Repr

/-- The fields of `cloudflare.Config` that `Apply` sets. -/
structure CloudflareConfig where
  AuthToken : String
  PropagationTimeout : Int
  deriving DecidableEq, Repr

/-- The fields of `godaddy.Config` that `Apply` sets. -/
structure GodaddyConfig where
  APIKey : String
  APISecret : String
  PropagationTimeout : Int
  deriving DecidableEq, Repr

/-- The fields of `pdns.Config` that `Apply` sets; `Host` is a pointer, `none` when
`url.Parse` failed. -/
structure PdnsConfig where
  Host : Option String
  APIKey : String
  PropagationTimeout : Int
  deriving DecidableEq, Repr

/-- The library and package functions an `Apply` method calls, for a vendor with
configuration type `Cfg`: the vendor's `NewDefaultConfig` and `NewDNSProviderConfig`
and the package function `apply`. -/
structure Lego (Cfg Prov Cert : Type) where
  NewDefaultConfig : Cfg
  NewDNSProviderConfig : Cfg → Except String Prov
  apply : ApplyOption → Prov → Except String Cert

/-- A call made by an `Apply` method, with its argument. -/
inductive Step (Cfg Prov : Type) where
  | newDNSProviderConfig (config : Cfg)
  | apply (provider : Prov)
  deriving DecidableEq, Repr

/-- The common tail of the four `Apply` methods: build the provider from `config`,
return its error if any, else hand over to `apply`. -/
def provide {Cfg Prov Cert : Type} (lego : Lego Cfg Prov Cert) (option : ApplyOption)
    (config : Cfg) : Except String Cert × List (Step Cfg Prov) :=
  match lego.NewDNSProviderConfig config with
  | .error err => (.error err, [Step.newDNSProviderConfig config])
  | .ok provider =>
    (lego.apply option provider, [Step.newDNSProviderConfig config, Step.apply provider])

/-- `awsApplicant.Apply` (aws.go, lines 22-41).  `jsonUnmarshal data v` is
`json.Unmarshal(data, &v)`: the struct as the decoder leaves it, and the error. -/
def awsApplicant.Apply {Prov Cert : Type}
    (jsonUnmarshal : String → AwsAccess → AwsAccess × Option String)
    (lego : Lego Route53Config Prov Cert) (option : ApplyOption) :
    Except String Cert × List (Step Route53Config Prov) :=
  let access := (jsonUnmarshal option.Access
    { AccessKeyId := "", SecretAccessKey := "", Region := "", HostedZoneId := "" }).1
  let config := lego.NewDefaultConfig
  let config := { config with
    AccessKeyID := access.AccessKeyId
    SecretAccessKey := access.SecretAccessKey
    Region := access.Region
    HostedZoneID := access.HostedZoneId }
  let config :=
    if option.Timeout ≠ 0 then { config with PropagationTimeout := seconds option.Timeout }
    else config
  provide lego option config

/-- `cloudflareApplicant.Apply` (cloudflare.go, lines 22-38). -/
def cloudflareApplicant.Apply {Prov Cert : Type}
    (jsonUnmarshal : String → CloudflareAccess → CloudflareAccess × Option String)
    (lego : Lego CloudflareConfig Prov Cert) (option : ApplyOption) :
    Except String Cert × List (Step CloudflareConfig Prov) :=
  let access := (jsonUnmarshal option.Access { DnsApiToken := "" }).1
  let config := lego.NewDefaultConfig
  let config := { config with AuthToken := access.DnsApiToken }
  let config :=
    if option.Timeout ≠ 0 then { config with PropagationTimeout := seconds option.Timeout }
    else config
  provide lego option config

/-- `godaddyApplicant.Apply` (godaddy.go, lines 22-39). -/
def godaddyApplicant.Apply {Prov Cert : Type}
    (jsonUnmarshal : String → GodaddyAccess → GodaddyAccess × Option String)
    (lego : Lego GodaddyConfig Prov Cert) (option : ApplyOption) :
    Except String Cert × List (Step GodaddyConfig Prov) :=
  let access := (jsonUnmarshal option.Access { ApiKey := "", ApiSecret := "" }).1
  let config := lego.NewDefaultConfig
  let config := { config with APIKey := access.ApiKey, APISecret := access.ApiSecret }
  let config :=
    if option.Timeout ≠ 0 then { config with PropagationTimeout := seconds option.Timeout }
    else config
  provide lego option config

/-- `powerdnsApplicant.Apply` (powerdns.go, lines 23-41).  `urlParse` is `url.Parse`;
its error is dropped by the code and a failed parse leaves a nil host. -/
def powerdnsApplicant.Apply {Prov Cert : Type}
    (jsonUnmarshal : String → PdnsAccess → PdnsAccess × Option String)
    (urlParse : String → Except String String)
    (lego : Lego PdnsConfig Prov Cert) (option : ApplyOption) :
    Except String Cert × List (Step PdnsConfig Prov) :=
  let access := (jsonUnmarshal option.Access { ApiUrl := "", ApiKey := "" }).1
  let config := lego.NewDefaultConfig
  let host := (urlParse access.ApiUrl).toOption
  let config := { config with Host := host, APIKey := access.ApiKey }
  let config :=
    if option.Timeout ≠ 0 then { config with PropagationTimeout := seconds option.Timeout }
    else config
  provide lego option config

/-- A decoder that rejects every input and leaves the struct as it found it, as
`json.Unmarshal` does on text that is not JSON. -/
def rejectAll {α : Type} (_data : String) (v : α) : α × Option String :=
  (v, some "invalid character 'x' looking for beginning of value")

/-- A stand-in for lego's `route53` package and the package function `apply`:
`NewDNSProviderConfig` builds a provider from any configuration (without static
credentials the AWS client falls back to its default credential chain), and `apply`
issues the certificate `"CERT"`. -/
def route53Library : Lego Route53Config String String where
  NewDefaultConfig :=
    { AccessKeyID := "", SecretAccessKey := "", Region := "", HostedZoneID := "",
      PropagationTimeout := 120000000000 }
  NewDNSProviderConfig := fun _ => .ok "route53"
  apply := fun _ _ => .ok "CERT"

/-- A stand-in for lego's `cloudflare` package: `NewDNSProviderConfig` rejects a
configuration without credentials. -/
def cloudflareLibrary : Lego CloudflareConfig String String where
  NewDefaultConfig := { AuthToken := "", PropagationTimeout := 120000000000 }
  NewDNSProviderConfig := fun config =>
    if config.AuthToken = "" then
      .error "cloudflare: invalid credentials: key & email must not be empty"
    else .ok "cloudflare"
  apply := fun _ _ => .ok "CERT"

/-- A stand-in for lego's `godaddy` package: `NewDNSProviderConfig` rejects a
configuration that lacks the key or the secret. -/
def godaddyLibrary : Lego GodaddyConfig String String where
  NewDefaultConfig := { APIKey := "", APISecret := "", PropagationTimeout := 120000000000 }
  NewDNSProviderConfig := fun config =>
    if config.APIKey = "" ∨ config.APISecret = "" then .error "godaddy: credentials missing"
    else .ok "godaddy"
  apply := fun _ _ => .ok "CERT"

/-- A stand-in for lego's `pdns` package: `NewDNSProviderConfig` rejects a configuration
that lacks the key or the host. -/
def pdnsLibrary : Lego PdnsConfig String String where
  NewDefaultConfig := { Host := none, APIKey := "", PropagationTimeout := 120000000000 }
  NewDNSProviderConfig := fun config =>
    if config.APIKey = "" then .error "pdns: API key missing"
    else if config.Host = none ∨ config.Host = some "" then .error "pdns: API URL missing"
    else .ok "pdns"
  apply := fun _ _ => .ok "CERT"

/-- The decoder `f` with its error taken away: same struct, no error. -/
def ignoreError {α : Type} (f : String → α → α × Option String) :
    String → α → α × Option String :=
  fun data v => ((f data v).1, none)

/-- The outcome of building a provider from `config` and handing it to `apply`. -/
def outcome {Cfg Prov Cert : Type} (lego : Lego Cfg Prov Cert) (option : ApplyOption)
    (config : Cfg) : Except String Cert :=
  match lego.NewDNSProviderConfig config with
  | .error err => .error err
  | .ok provider => lego.apply option provider

end Applicant

/-! ## Lemmas on the 1Panel uploader -/

namespace OnePanel

open GoLib Uploader

theorem pageCalls_succ (first n : Nat) :
    pageCalls first (n + 1) =
      Call.search { Page := (first : Int), PageSize := 100 } :: pageCalls (first + 1) n := by
  simp [pageCalls, List.range'_succ]

theorem uploadCalls_append (l₁ l₂ : List Call) :
    uploadCalls (l₁ ++ l₂) = uploadCalls l₁ + uploadCalls l₂ := by
  simp [uploadCalls]

theorem searchCalls_append (l₁ l₂ : List Call) :
    searchCalls (l₁ ++ l₂) = searchCalls l₁ + searchCalls l₂ := by
  simp [searchCalls]

theorem uploadCalls_pageCalls (first n : Nat) : uploadCalls (pageCalls first n) = 0 := by
  induction n generalizing first with
  | zero => simp [pageCalls, uploadCalls]
  | succ n ih =>
    rw [pageCalls_succ]
    have := ih (first + 1)
    simp only [uploadCalls] at this ⊢
    simpa [Call.isUpload] using this

theorem searchCalls_pageCalls (first n : Nat) : searchCalls (pageCalls first n) = n := by
  induction n generalizing first with
  | zero => simp [pageCalls, searchCalls]
  | succ n ih =>
    rw [pageCalls_succ]
    have := ih (first + 1)
    simp only [searchCalls] at this ⊢
    simp [Call.isSearch, this]

theorem wrapInt32_of_lt (k : Nat) (h : k < 2147483648) : wrapInt32 (k : Int) = (k : Int) := by
  unfold wrapInt32
  omega

/-- What the store answers for page `k + 1` of size 100. -/
theorem storeClient_search (assignId : List SslItem → Int) (s : List SslItem) (k : Nat) :
    (storeClient assignId).SearchWebsiteSSL s { Page := (k : Int) + 1, PageSize := 100 } =
      (.ok ((s.drop (k * 100)).take 100), s) := by
  have h1 : (1 : Int) ≤ (k : Int) + 1 := by omega
  have h2 : ((k : Int) + 1 - 1).toNat = k := by simp
  simp [storeClient, h1, h2]

/-- The scan of the store from page `k + 1` on, when the context is never cancelled and
the page counter stays within `int32`: it terminates, answers with the first matching
record among those not yet scanned, leaves the store as it is and logs `n` consecutive
page calls, `n` being the number of remaining pages when nothing matches. -/
theorem findLoop_store (assignId : List SslItem → Int) (ctx : Nat → Option String)
    (hctx : ∀ n, ctx n = none) (certPEM privkeyPEM : String) (s : List SslItem)
    (hs : s.length / 100 + 1 < 2147483648) :
    ∀ (fuel k polls : Nat) (calls : List Call), k ≤ s.length / 100 →
      s.length / 100 + 1 ≤ fuel + k →
      ∃ n, 1 ≤ n ∧ n ≤ s.length / 100 + 1 - k ∧
        ((s.drop (k * 100)).find? (sameCert certPEM privkeyPEM) = none →
          n = s.length / 100 + 1 - k) ∧
        findLoop (storeClient assignId) ctx certPEM privkeyPEM fuel ((k : Int) + 1)
            { vendor := s, polls := polls, calls := calls } =
          some (.ok (((s.drop (k * 100)).find? (sameCert certPEM privkeyPEM)).map toResult),
            { vendor := s, polls := polls + n, calls := calls ++ pageCalls (k + 1) n }) := by
  intro fuel
  induction fuel with
  | zero => intro k polls calls hk hf; omega
  | succ fuel ih =>
    intro k polls calls hk hf
    have hsplit : s.drop (k * 100) =
        (s.drop (k * 100)).take 100 ++ s.drop ((k + 1) * 100) := by
      rw [show (k + 1) * 100 = k * 100 + 100 by ring, ← List.drop_drop, List.take_append_drop]
    have hlen : ((s.drop (k * 100)).take 100).length = min 100 (s.length - k * 100) := by
      simp
    have hkle : k * 100 ≤ s.length := by
      have := Nat.div_mul_le_self s.length 100
      nlinarith
    have hmod := Nat.div_add_mod s.length 100
    have hmodlt := Nat.mod_lt s.length (show 100 > 0 by norm_num)
    rw [findLoop, hctx]
    simp only [storeClient_search]
    cases hfind : ((s.drop (k * 100)).take 100).find? (sameCert certPEM privkeyPEM) with
    | some it =>
      refine ⟨1, le_refl _, by omega, ?_, ?_⟩
      · intro hnone
        rw [hsplit, List.find?_append, hfind] at hnone
        simp at hnone
      · have : (s.drop (k * 100)).find? (sameCert certPEM privkeyPEM) = some it := by
          rw [hsplit, List.find?_append, hfind]; rfl
        simp [this, pageCalls]
    | none =>
      by_cases hlt : ((s.drop (k * 100)).take 100).length < 100
      · have hk_eq : k = s.length / 100 := by
          rw [hlen] at hlt
          have : s.length - k * 100 < 100 := by omega
          omega
        have hall : (s.drop (k * 100)).take 100 = s.drop (k * 100) := by
          apply List.take_of_length_le
          rw [hlen] at hlt
          simp
          omega
        refine ⟨1, le_refl _, by omega, fun _ => by omega, ?_⟩
        rw [hall] at hfind
        simp only [hlt, if_true, hfind]
        simp [pageCalls]
      · have hge : 100 ≤ s.length - k * 100 := by
          rw [hlen] at hlt
          omega
        have hk1 : k + 1 ≤ s.length / 100 := by
          rw [Nat.le_div_iff_mul_le (by norm_num)]
          omega
        obtain ⟨n, hn1, hn2, hn3, hrun⟩ :=
          ih (k + 1) (polls + 1) (calls ++ [Call.search { Page := (k : Int) + 1, PageSize := 100 }])
            hk1 (by omega)
        have hwrap : wrapInt32 ((k : Int) + 1 + 1) = ((k + 1 : Nat) : Int) + 1 := by
          have := wrapInt32_of_lt (k + 2) (by omega)
          push_cast at this ⊢
          rw [show (k : Int) + 1 + 1 = (k : Int) + 2 by ring]
          exact this
        have hrest : (s.drop (k * 100)).find? (sameCert certPEM privkeyPEM) =
            (s.drop ((k + 1) * 100)).find? (sameCert certPEM privkeyPEM) := by
          conv_lhs => rw [hsplit, List.find?_append, hfind]
          rfl
        refine ⟨n + 1, by omega, by omega, ?_, ?_⟩
        · intro hnone
          rw [hrest] at hnone
          have := hn3 hnone
          omega
        · simp only [hlt, if_false, hwrap, hrun, hrest, pageCalls_succ]
          simp [Nat.add_assoc, Nat.add_comm 1 n]

/-- A whole scan of the store (`findCertIfExists`), under the conditions of
`findLoop_store`. -/
theorem findCertIfExists_store (assignId : List SslItem → Int) (ctx : Nat → Option String)
    (hctx : ∀ n, ctx n = none) (certPEM privkeyPEM : String) (s : List SslItem)
    (hs : s.length / 100 + 1 < 2147483648) (fuel polls : Nat) (calls : List Call)
    (hfuel : s.length / 100 + 1 ≤ fuel) :
    ∃ n, 1 ≤ n ∧ n ≤ s.length / 100 + 1 ∧
      (s.find? (sameCert certPEM privkeyPEM) = none → n = s.length / 100 + 1) ∧
      findCertIfExists (storeClient assignId) ctx fuel certPEM privkeyPEM
          { vendor := s, polls := polls, calls := calls } =
        some (.ok ((s.find? (sameCert certPEM privkeyPEM)).map toResult),
          { vendor := s, polls := polls + n, calls := calls ++ pageCalls 1 n }) := by
  have h := findLoop_store assignId ctx hctx certPEM privkeyPEM s hs fuel 0 polls calls
    (Nat.zero_le _) (by omega)
  simpa [findCertIfExists] using h

/-- `Upload` on a store that already holds a matching record: the first such record is
returned after page calls only, and the store is left as it is. -/
theorem Upload_store_found (assignId : List SslItem → Int) (ctx : Nat → Option String)
    (hctx : ∀ n, ctx n = none) (certPEM privkeyPEM : String) (s : List SslItem)
    (hs : s.length / 100 + 1 < 2147483648) (fuel polls : Nat) (calls : List Call)
    (hfuel : s.length / 100 + 1 ≤ fuel) (nowMilli : Int) (it : SslItem)
    (hit : s.find? (sameCert certPEM privkeyPEM) = some it) :
    ∃ n, Upload (storeClient assignId) ctx nowMilli fuel certPEM privkeyPEM
          { vendor := s, polls := polls, calls := calls } =
        some (.ok (toResult it),
          { vendor := s, polls := polls + n, calls := calls ++ pageCalls 1 n }) := by
  obtain ⟨n, -, -, -, hrun⟩ :=
    findCertIfExists_store assignId ctx hctx certPEM privkeyPEM s hs fuel polls calls hfuel
  refine ⟨n, ?_⟩
  rw [hit] at hrun
  simp [Upload, hrun]

theorem sameCert_self (certPEM privkeyPEM : String) (id : Int) (name : String) :
    sameCert certPEM privkeyPEM
      { ID := id, PEM := certPEM, PrivateKey := privkeyPEM, Description := name } = true := by
  simp [sameCert]

/-- `Upload` on a store without a matching record: one create call between two scans,
and the appended record is the one returned. -/
theorem Upload_store_fresh (assignId : List SslItem → Int) (ctx : Nat → Option String)
    (hctx : ∀ n, ctx n = none) (certPEM privkeyPEM : String) (s : List SslItem)
    (hs : (s.length + 1) / 100 + 1 < 2147483648) (fuel polls : Nat) (calls : List Call)
    (hfuel : (s.length + 1) / 100 + 1 ≤ fuel) (nowMilli : Int)
    (hno : s.find? (sameCert certPEM privkeyPEM) = none) :
    ∃ n₁ n₂, Upload (storeClient assignId) ctx nowMilli fuel certPEM privkeyPEM
          { vendor := s, polls := polls, calls := calls } =
        some (.ok { CertId := fmtD (assignId s), CertName := "certimate-" ++ fmtD nowMilli },
          { vendor := s ++ [{ ID := assignId s, PEM := certPEM, PrivateKey := privkeyPEM,
                              Description := "certimate-" ++ fmtD nowMilli }],
            polls := polls + n₁ + n₂,
            calls := calls ++ pageCalls 1 n₁ ++
              [Call.upload { Type_ := "paste", Description := "certimate-" ++ fmtD nowMilli,
                             Certificate := certPEM, PrivateKey := privkeyPEM }] ++
              pageCalls 1 n₂ }) := by
  have hdiv : s.length / 100 ≤ (s.length + 1) / 100 := Nat.div_le_div_right (Nat.le_succ _)
  obtain ⟨n₁, -, -, -, hrun₁⟩ :=
    findCertIfExists_store assignId ctx hctx certPEM privkeyPEM s (by omega) fuel polls calls
      (by omega)
  rw [hno] at hrun₁
  obtain ⟨n₂, -, -, -, hrun₂⟩ :=
    findCertIfExists_store assignId ctx hctx certPEM privkeyPEM
      (s ++ [{ ID := assignId s, PEM := certPEM, PrivateKey := privkeyPEM,
               Description := "certimate-" ++ fmtD nowMilli }])
      (by simpa using hs) fuel (polls + n₁)
      (calls ++ pageCalls 1 n₁ ++
        [Call.upload { Type_ := "paste", Description := "certimate-" ++ fmtD nowMilli,
                       Certificate := certPEM, PrivateKey := privkeyPEM }])
      (by simpa using hfuel)
  have hfind : List.find? (sameCert certPEM privkeyPEM)
        (s ++ [({ ID := assignId s, PEM := certPEM, PrivateKey := privkeyPEM,
                  Description := "certimate-" ++ fmtD nowMilli } : SslItem)]) =
      some { ID := assignId s, PEM := certPEM, PrivateKey := privkeyPEM,
             Description := "certimate-" ++ fmtD nowMilli } := by
    rw [List.find?_append, hno]
    simp [List.find?, sameCert_self]
  rw [hfind] at hrun₂
  refine ⟨n₁, n₂, ?_⟩
  simp only [Upload, hrun₁, Option.map_none']
  simp only [storeClient] at hrun₂ ⊢
  simp only [hrun₂]
  simp [toResult]

/-! ### White space -/

theorem dropWhile_isSpace_append_left (l x : List Char) (hl : ∀ c ∈ l, isSpace c = true) :
    (l ++ x).dropWhile isSpace = x.dropWhile isSpace := by
  induction l with
  | nil => rfl
  | cons a l ih =>
    have ha : isSpace a = true := hl a (List.mem_cons_self _ _)
    simp only [List.cons_append, List.dropWhile_cons, ha, if_true]
    exact ih (fun c hc => hl c (List.mem_cons_of_mem _ hc))

theorem trimSpaceChars_append_left (l x : List Char) (hl : ∀ c ∈ l, isSpace c = true) :
    trimSpaceChars (l ++ x) = trimSpaceChars x := by
  simp only [trimSpaceChars, dropWhile_isSpace_append_left l x hl]

theorem trimSpaceChars_append_right (x r : List Char) (hr : ∀ c ∈ r, isSpace c = true) :
    trimSpaceChars (x ++ r) = trimSpaceChars x := by
  induction x with
  | nil =>
    have h := dropWhile_isSpace_append_left r [] hr
    simp only [List.append_nil, List.dropWhile_nil] at h
    simp [trimSpaceChars, h]
  | cons a x ih =>
    by_cases ha : isSpace a = true
    · simp only [trimSpaceChars, List.cons_append, List.dropWhile_cons, ha, if_true] at ih ⊢
      exact ih
    · have hrev : ∀ c ∈ r.reverse, isSpace c = true := fun c hc => hr c (List.mem_reverse.mp hc)
      simp only [trimSpaceChars, List.cons_append, List.dropWhile_cons, ha]
      simp only [Bool.false_eq_true, if_false]
      rw [← List.cons_append, List.reverse_append,
        dropWhile_isSpace_append_left r.reverse _ hrev]

theorem TrimSpace_eq_of_differ (a b : String) (h : DifferOnlyInSurroundingSpace a b) :
    TrimSpace a = TrimSpace b := by
  obtain ⟨core, l₁, r₁, l₂, r₂, h1, h2, h3, h4, ha, hb⟩ := h
  simp only [TrimSpace, ha, hb]
  rw [trimSpaceChars_append_right _ _ h2, trimSpaceChars_append_left _ _ h1,
    trimSpaceChars_append_right _ _ h4, trimSpaceChars_append_left _ _ h3]

theorem findLoop_congr {σ : Type} (c : Client σ) (ctx : Nat → Option String)
    (certPEM privkeyPEM certPEM' privkeyPEM' : String)
    (hc : TrimSpace certPEM = TrimSpace certPEM')
    (hk : TrimSpace privkeyPEM = TrimSpace privkeyPEM') (fuel : Nat) (page : Int) (w : World σ) :
    findLoop c ctx certPEM privkeyPEM fuel page w =
      findLoop c ctx certPEM' privkeyPEM' fuel page w := by
  have hsame : sameCert certPEM privkeyPEM = sameCert certPEM' privkeyPEM' := by
    funext it
    simp [sameCert, hc, hk]
  induction fuel generalizing page w with
  | zero => rfl
  | succ fuel ih =>
    simp only [findLoop, hsame]
    cases ctx w.polls with
    | some e => rfl
    | none =>
      simp only []
      cases (c.SearchWebsiteSSL w.vendor { Page := page, PageSize := 100 }).1 with
      | error err => rfl
      | ok items =>
        simp only []
        cases items.find? (sameCert certPEM' privkeyPEM') with
        | some it => rfl
        | none =>
          simp only []
          split
          · rfl
          · exact ih _ _

end OnePanel

/-! ## Specified properties of the 1Panel uploader -/

namespace OnePanel

open GoLib Uploader

/-- C1: on the vendor store (a finite list served in pages of 100, where a successful
`UploadWebsiteSSL` appends a record holding the uploaded PEMs), with a context that is
never cancelled and a store small enough for the `int32` page counter, two `Upload`
calls in sequence for the same certificate/key pair both succeed with the same result
(same `CertId`), and the second call leaves the store as it is and logs no
`UploadWebsiteSSL` call. -/
theorem C1_upload_twice_same_id (assignId : List SslItem → Int) (ctx : Nat → Option String)
    (certPEM privkeyPEM : String) (store : List SslItem) (polls : Nat) (calls : List Call)
    (now₁ now₂ : Int) (fuel : Nat)
    (hctx : ∀ n, ctx n = none)
    (hsize : (store.length + 1) / 100 + 1 < 2147483648)
    (hfuel : (store.length + 1) / 100 + 1 ≤ fuel) :
    ∃ (res : UploadResult) (w₁ w₂ : World (List SslItem)) (second : List Call),
      Upload (storeClient assignId) ctx now₁ fuel certPEM privkeyPEM
          { vendor := store, polls := polls, calls := calls } = some (.ok res, w₁) ∧
      Upload (storeClient assignId) ctx now₂ fuel certPEM privkeyPEM w₁ = some (.ok res, w₂) ∧
      w₂.vendor = w₁.vendor ∧ w₂.calls = w₁.calls ++ second ∧ uploadCalls second = 0 := by
  have hdiv : store.length / 100 ≤ (store.length + 1) / 100 :=
    Nat.div_le_div_right (Nat.le_succ _)
  cases hfind : store.find? (sameCert certPEM privkeyPEM) with
  | some it =>
    obtain ⟨n₁, h₁⟩ := Upload_store_found assignId ctx hctx certPEM privkeyPEM store
      (by omega) fuel polls calls (by omega) now₁ it hfind
    obtain ⟨n₂, h₂⟩ := Upload_store_found assignId ctx hctx certPEM privkeyPEM store
      (by omega) fuel (polls + n₁) (calls ++ pageCalls 1 n₁) (by omega) now₂ it hfind
    exact ⟨_, _, _, pageCalls 1 n₂, h₁, h₂, rfl, rfl, uploadCalls_pageCalls _ _⟩
  | none =>
    obtain ⟨n₁, n₂, h₁⟩ := Upload_store_fresh assignId ctx hctx certPEM privkeyPEM store
      hsize fuel polls calls hfuel now₁ hfind
    have hfind₂ : List.find? (sameCert certPEM privkeyPEM)
        (store ++ [({ ID := assignId store, PEM := certPEM, PrivateKey := privkeyPEM,
                      Description := "certimate-" ++ fmtD now₁ } : SslItem)]) =
        some { ID := assignId store, PEM := certPEM, PrivateKey := privkeyPEM,
               Description := "certimate-" ++ fmtD now₁ } := by
      rw [List.find?_append, hfind]
      simp [List.find?, sameCert_self]
    obtain ⟨n₃, h₂⟩ := Upload_store_found assignId ctx hctx certPEM privkeyPEM _
      (by simpa using hsize) fuel (polls + n₁ + n₂) _ (by simpa using hfuel) now₂ _ hfind₂
    exact ⟨_, _, _, pageCalls 1 n₃, h₁, h₂, rfl, rfl, uploadCalls_pageCalls _ _⟩

/-- Witness of C1: the scenario of an empty store and the pair `CERT-A`, `KEY-A`. -/
theorem C1_upload_twice_same_id_witness :
    (∀ n, background n = none) ∧
    ∃ (res : UploadResult) (w₁ w₂ : World (List SslItem)) (second : List Call),
      Upload (storeClient (fun s => (s.length : Int) + 1)) background 1700000000000 1
          "CERT-A" "KEY-A" { vendor := [], polls := 0, calls := [] } = some (.ok res, w₁) ∧
      Upload (storeClient (fun s => (s.length : Int) + 1)) background 1700000000001 1
          "CERT-A" "KEY-A" w₁ = some (.ok res, w₂) ∧
      w₂.vendor = w₁.vendor ∧ w₂.calls = w₁.calls ++ second ∧ uploadCalls second = 0 :=
  ⟨fun _ => rfl,
    C1_upload_twice_same_id (fun s => (s.length : Int) + 1) background "CERT-A" "KEY-A" [] 0 []
      1700000000000 1700000000001 1 (fun _ => rfl) (by decide) (by decide)⟩

/-- C5, as stated, is false: on the empty store (N = 0) the scan issues one page call
while ceil(0/100) = 0, and on a store of exactly 100 records without a match it issues
two page calls while ceil(100/100) = 1. -/
theorem C5_counterexample :
    (∃ w, findCertIfExists (storeClient (fun _ => 0)) background 1 "CERT-A" "KEY-A"
          { vendor := [], polls := 0, calls := [] } = some (.ok none, w) ∧
        searchCalls w.calls = 1 ∧ searchCalls w.calls ≠ ceilDiv ([] : List SslItem).length 100) ∧
    (∃ w, findCertIfExists (storeClient (fun _ => 0)) background 2 "CERT-A" "KEY-A"
          { vendor := List.replicate 100 { ID := 7, PEM := "CERT-B", PrivateKey := "KEY-B",
                                           Description := "other" },
            polls := 0, calls := [] } = some (.ok none, w) ∧
        searchCalls w.calls = 2 ∧
        searchCalls w.calls ≠
          ceilDiv (List.replicate 100 ({ ID := 7, PEM := "CERT-B", PrivateKey := "KEY-B",
                                         Description := "other" } : SslItem)).length 100) := by
  constructor
  · exact ⟨_, rfl, rfl, by decide⟩
  · have hno : List.find? (sameCert "CERT-A" "KEY-A")
        (List.replicate 100 ({ ID := 7, PEM := "CERT-B", PrivateKey := "KEY-B",
                               Description := "other" } : SslItem)) = none := by
      rw [List.find?_eq_none]
      intro x hx
      rw [List.eq_of_mem_replicate hx]
      decide
    obtain ⟨n, -, -, hn, hrun⟩ := findCertIfExists_store (fun _ => 0) background (fun _ => rfl)
      "CERT-A" "KEY-A" (List.replicate 100 { ID := 7, PEM := "CERT-B", PrivateKey := "KEY-B",
                                             Description := "other" })
      (by simp) 2 0 [] (by simp)
    have hn2 : n = 2 := by simpa using hn hno
    subst hn2
    rw [hno] at hrun
    refine ⟨_, hrun, ?_, ?_⟩
    · simp [searchCalls_pageCalls]
    · simp [searchCalls_pageCalls, ceilDiv]

/-- C5, amended: on a store of N records served in pages of 100 in which no record
matches the candidate pair, with a context that is never cancelled (and N small enough
for the `int32` page counter), `findCertIfExists` reports not found after exactly
floor(N/100) + 1 `SearchWebsiteSSL` calls, for pages 1, 2, ..., floor(N/100) + 1; it
issues no create call and leaves the store as it is.  That number is ceil(N/100) when
N is not a multiple of 100 and ceil(N/100) + 1 when it is (N = 0 included). -/
theorem C5_page_calls_when_absent (assignId : List SslItem → Int) (ctx : Nat → Option String)
    (certPEM privkeyPEM : String) (store : List SslItem) (polls : Nat) (calls : List Call)
    (fuel : Nat)
    (hctx : ∀ n, ctx n = none)
    (hno : ∀ it ∈ store, sameCert certPEM privkeyPEM it = false)
    (hsize : store.length / 100 + 1 < 2147483648)
    (hfuel : store.length / 100 + 1 ≤ fuel) :
    findCertIfExists (storeClient assignId) ctx fuel certPEM privkeyPEM
        { vendor := store, polls := polls, calls := calls } =
      some (.ok none,
        { vendor := store, polls := polls + (store.length / 100 + 1),
          calls := calls ++ pageCalls 1 (store.length / 100 + 1) }) ∧
    searchCalls (calls ++ pageCalls 1 (store.length / 100 + 1)) =
      searchCalls calls + (store.length / 100 + 1) ∧
    uploadCalls (calls ++ pageCalls 1 (store.length / 100 + 1)) = uploadCalls calls ∧
    (store.length % 100 ≠ 0 → store.length / 100 + 1 = ceilDiv store.length 100) ∧
    (store.length % 100 = 0 → store.length / 100 + 1 = ceilDiv store.length 100 + 1) := by
  have hnone : store.find? (sameCert certPEM privkeyPEM) = none := by
    rw [List.find?_eq_none]
    intro x hx
    simp [hno x hx]
  obtain ⟨n, -, -, hn, hrun⟩ := findCertIfExists_store assignId ctx hctx certPEM privkeyPEM
    store hsize fuel polls calls hfuel
  have hn' := hn hnone
  subst hn'
  rw [hnone] at hrun
  refine ⟨hrun, ?_, ?_, ?_, ?_⟩
  · rw [searchCalls_append, searchCalls_pageCalls]
  · rw [uploadCalls_append, uploadCalls_pageCalls, Nat.add_zero]
  · intro h
    unfold ceilDiv
    omega
  · intro h
    unfold ceilDiv
    omega

/-- Witness of C5 (amended): a store of one record that does not match. -/
theorem C5_page_calls_when_absent_witness :
    findCertIfExists (storeClient (fun _ => 0)) background 1 "CERT-A" "KEY-A"
        { vendor := [{ ID := 7, PEM := "CERT-B", PrivateKey := "KEY-B", Description := "other" }],
          polls := 0, calls := [] } =
      some (.ok none,
        { vendor := [{ ID := 7, PEM := "CERT-B", PrivateKey := "KEY-B", Description := "other" }],
          polls := 1, calls := pageCalls 1 1 }) :=
  (C5_page_calls_when_absent (fun _ => 0) background "CERT-A" "KEY-A"
    [{ ID := 7, PEM := "CERT-B", PrivateKey := "KEY-B", Description := "other" }] 0 [] 1
    (fun _ => rfl) (by decide) (by decide) (by decide)).1

/-- C9: for any vendor, if the first scan reports not found, `UploadWebsiteSSL`
succeeds with response `resp`, and the scan after it completes without error and again
reports not found, then `Upload` returns no result but the error
"no ssl certificate found, may be upload failed (code: C, message: M)" with C and M the
code and message of `resp`; both occur in the error text.  Moreover, whenever `Upload`
returns a result, that result was found by one of its two scans. -/
theorem C9_unobservable_record_is_an_error {σ : Type} (c : Client σ)
    (ctx : Nat → Option String) (nowMilli : Int) (fuel : Nat) (certPEM privkeyPEM : String)
    (w w₁ w₃ : World σ) (resp : UploadWebsiteSSLResponse) (v₂ : σ)
    (hscan₁ : findCertIfExists c ctx fuel certPEM privkeyPEM w = some (.ok none, w₁))
    (hcreate : c.UploadWebsiteSSL w₁.vendor
        { Type_ := "paste", Description := "certimate-" ++ fmtD nowMilli,
          Certificate := certPEM, PrivateKey := privkeyPEM } = (.ok resp, v₂))
    (hscan₂ : findCertIfExists c ctx fuel certPEM privkeyPEM
        { vendor := v₂, polls := w₁.polls,
          calls := w₁.calls ++ [Call.upload
            { Type_ := "paste", Description := "certimate-" ++ fmtD nowMilli,
              Certificate := certPEM, PrivateKey := privkeyPEM }] } = some (.ok none, w₃)) :
    Upload c ctx nowMilli fuel certPEM privkeyPEM w =
        some (.error ("no ssl certificate found, may be upload failed (code: " ++
          fmtD resp.Code ++ ", message: " ++ resp.Message ++ ")"), w₃) ∧
    (fmtD resp.Code).data <:+: ("no ssl certificate found, may be upload failed (code: " ++
          fmtD resp.Code ++ ", message: " ++ resp.Message ++ ")").data ∧
    resp.Message.data <:+: ("no ssl certificate found, may be upload failed (code: " ++
          fmtD resp.Code ++ ", message: " ++ resp.Message ++ ")").data ∧
    (∀ (res : UploadResult) (w' : World σ) (fuel' : Nat) (now' : Int) (cert' key' : String)
        (w₀ : World σ),
      Upload c ctx now' fuel' cert' key' w₀ = some (.ok res, w') →
      findCertIfExists c ctx fuel' cert' key' w₀ = some (.ok (some res), w') ∨
      ∃ (w₁' : World σ) (resp' : UploadWebsiteSSLResponse),
        findCertIfExists c ctx fuel' cert' key' w₀ = some (.ok none, w₁') ∧
        (c.UploadWebsiteSSL w₁'.vendor
          { Type_ := "paste", Description := "certimate-" ++ fmtD now',
            Certificate := cert', PrivateKey := key' }).1 = .ok resp' ∧
        findCertIfExists c ctx fuel' cert' key'
          { vendor := (c.UploadWebsiteSSL w₁'.vendor
              { Type_ := "paste", Description := "certimate-" ++ fmtD now',
                Certificate := cert', PrivateKey := key' }).2,
            polls := w₁'.polls,
            calls := w₁'.calls ++ [Call.upload
              { Type_ := "paste", Description := "certimate-" ++ fmtD now',
                Certificate := cert', PrivateKey := key' }] } = some (.ok (some res), w')) := by
  refine ⟨?_, ?_, ?_, ?_⟩
  · simp only [Upload, hscan₁, hcreate, hscan₂]
  · exact ⟨"no ssl certificate found, may be upload failed (code: ".data,
      (", message: " ++ resp.Message ++ ")").data, by simp [String.append_assoc]⟩
  · exact ⟨("no ssl certificate found, may be upload failed (code: " ++
      fmtD resp.Code ++ ", message: ").data, ")".data, by simp⟩
  · intro res w' fuel' now' cert' key' w₀ h
    unfold Upload at h
    split at h
    · simp at h
    · simp at h
    · next res₁ w₁ heq =>
      left
      simp only [Option.some.injEq, Prod.mk.injEq, Except.ok.injEq] at h
      rw [heq, h.1, h.2]
    · next w₁ heq =>
      right
      simp only at h
      split at h
      · simp at h
      · next resp' hresp =>
        split at h
        · simp at h
        · simp at h
        · simp at h
        · next res₃ w₃ heq₃ =>
          simp only [Option.some.injEq, Prod.mk.injEq, Except.ok.injEq] at h
          exact ⟨_, resp', heq, hresp, by rw [heq₃, h.1, h.2]⟩

/-- Witness of C9: a vendor that reports a successful create and never lists the
record. -/
theorem C9_unobservable_record_is_an_error_witness :
    Upload forgetful background 5 1 "CERT-A" "KEY-A" { vendor := (), polls := 0, calls := [] } =
      some (.error "no ssl certificate found, may be upload failed (code: 200, message: OK)",
        { vendor := (), polls := 2,
          calls := [Call.search { Page := 1, PageSize := 100 },
                    Call.upload { Type_ := "paste", Description := "certimate-5",
                                  Certificate := "CERT-A", PrivateKey := "KEY-A" },
                    Call.search { Page := 1, PageSize := 100 }] }) :=
  (C9_unobservable_record_is_an_error forgetful background 5 1 "CERT-A" "KEY-A"
    { vendor := (), polls := 0, calls := [] }
    { vendor := (), polls := 1, calls := [Call.search { Page := 1, PageSize := 100 }] }
    { vendor := (), polls := 2,
      calls := [Call.search { Page := 1, PageSize := 100 },
                Call.upload { Type_ := "paste", Description := "certimate-5",
                              Certificate := "CERT-A", PrivateKey := "KEY-A" },
                Call.search { Page := 1, PageSize := 100 }] }
    { Code := 200, Message := "OK" } () rfl rfl rfl).1

/-- C10: for any vendor, two candidate pairs that differ only in leading or trailing
white space of either field make `findCertIfExists` behave identically: same result
(same `CertId` and `CertName`, or not found for both) and same log of page calls.  A
stored record whose PEM and private key differ from the candidate only in surrounding
white space is a match, and a store holding such a record yields a result. -/
theorem C10_surrounding_space_ignored {σ : Type} (c : Client σ) (ctx : Nat → Option String)
    (fuel : Nat) (certPEM privkeyPEM certPEM' privkeyPEM' : String) (w : World σ)
    (hcert : DifferOnlyInSurroundingSpace certPEM certPEM')
    (hkey : DifferOnlyInSurroundingSpace privkeyPEM privkeyPEM') :
    findCertIfExists c ctx fuel certPEM privkeyPEM w =
      findCertIfExists c ctx fuel certPEM' privkeyPEM' w ∧
    (∀ it : SslItem, DifferOnlyInSurroundingSpace it.PEM certPEM →
      DifferOnlyInSurroundingSpace it.PrivateKey privkeyPEM →
      sameCert certPEM privkeyPEM it = true ∧
      ∀ (assignId : List SslItem → Int) (store : List SslItem) (polls : Nat)
        (calls : List Call) (fuel' : Nat),
        (∀ n, ctx n = none) → store.length / 100 + 1 < 2147483648 →
        store.length / 100 + 1 ≤ fuel' → it ∈ store →
        ∃ res w', findCertIfExists (storeClient assignId) ctx fuel' certPEM privkeyPEM
          { vendor := store, polls := polls, calls := calls } = some (.ok (some res), w')) := by
  refine ⟨?_, ?_⟩
  · exact findLoop_congr c ctx _ _ _ _ (TrimSpace_eq_of_differ _ _ hcert)
      (TrimSpace_eq_of_differ _ _ hkey) fuel 1 w
  · intro it h1 h2
    have hsame : sameCert certPEM privkeyPEM it = true := by
      simp [sameCert, TrimSpace_eq_of_differ _ _ h1, TrimSpace_eq_of_differ _ _ h2]
    refine ⟨hsame, ?_⟩
    intro assignId store polls calls fuel' hctx hsize hfuel hmem
    obtain ⟨n, -, -, -, hrun⟩ := findCertIfExists_store assignId ctx hctx certPEM privkeyPEM
      store hsize fuel' polls calls hfuel
    cases hfind : store.find? (sameCert certPEM privkeyPEM) with
    | none =>
      rw [List.find?_eq_none] at hfind
      exact absurd hsame (hfind it hmem)
    | some found =>
      rw [hfind] at hrun
      exact ⟨_, _, hrun⟩

/-- Witness of C10: the pair with spaces, a line end and a tab around it against the
bare pair, on a store holding the bare pair. -/
theorem C10_surrounding_space_ignored_witness :
    findCertIfExists (storeClient (fun _ => 0)) background 1 "  CERT-A\n" "KEY-A\t"
        { vendor := [{ ID := 7, PEM := "CERT-A", PrivateKey := "KEY-A", Description := "a" }],
          polls := 0, calls := [] } =
      findCertIfExists (storeClient (fun _ => 0)) background 1 "CERT-A" "KEY-A"
        { vendor := [{ ID := 7, PEM := "CERT-A", PrivateKey := "KEY-A", Description := "a" }],
          polls := 0, calls := [] } :=
  (C10_surrounding_space_ignored (storeClient (fun _ => 0)) background 1
    "  CERT-A\n" "KEY-A\t" "CERT-A" "KEY-A"
    { vendor := [{ ID := 7, PEM := "CERT-A", PrivateKey := "KEY-A", Description := "a" }],
      polls := 0, calls := [] }
    ⟨"CERT-A".data, "  ".data, "\n".data, [], [], by decide, by decide, by decide, by decide,
      rfl, rfl⟩
    ⟨"KEY-A".data, [], "\t".data, [], [], by decide, by decide, by decide, by decide,
      rfl, rfl⟩).1

end OnePanel

/-! ## Specified properties of the Aliyun CAS deployer -/

namespace AliyunCASDeploy

open GoLib

theorem describeCalls_append (a b : List Event) :
    describeCalls (a ++ b) = describeCalls a + describeCalls b := by
  simp [describeCalls]

theorem sleeps_append (a b : List Event) : sleeps (a ++ b) = sleeps a + sleeps b := by
  simp [sleeps]

theorem describeCalls_pollEvents (jobId : Option Int) (k : Nat) :
    describeCalls (pollEvents jobId k) = k := by
  induction k with
  | zero => rfl
  | succ k ih =>
    simp only [describeCalls] at ih
    simp [pollEvents, describeCalls, Event.isDescribe, ih]

theorem sleeps_pollEvents (jobId : Option Int) (k : Nat) : sleeps (pollEvents jobId k) = k := by
  induction k with
  | zero => rfl
  | succ k ih =>
    simp only [sleeps] at ih
    simp [pollEvents, sleeps, Event.isSleep, ih]

theorem inProgress_spec (st : Option String) (h : inProgress st = true) :
    ¬ (st = none ∨ st = some "editing") ∧ ¬ (st = some "success" ∨ st = some "error") := by
  simp only [inProgress, Bool.and_eq_true, bne_iff_ne, ne_eq] at h
  tauto

/-- While the context is not cancelled and the status read is in progress, the loop
goes round: `k` such iterations use `k` units of fuel and log `k` describe-sleep pairs. -/
theorem pollLoop_inProgress (env : Env) (jobId : Option Int) :
    ∀ (k fuel i : Nat) (tr : List Event),
      (∀ j, j < k → env.ctxErr (i + j) = none) →
      (∀ j, j < k → ∃ st, env.DescribeDeploymentJob jobId (i + j) = .ok st ∧
        inProgress st = true) →
      pollLoop env jobId (fuel + k) i tr =
        pollLoop env jobId fuel (i + k) (tr ++ pollEvents jobId k) := by
  intro k
  induction k with
  | zero => intro fuel i tr _ _; simp [pollEvents]
  | succ k ih =>
    intro fuel i tr hctx hst
    obtain ⟨st, hd, hp⟩ := hst 0 (Nat.succ_pos _)
    have hc := hctx 0 (Nat.succ_pos _)
    simp only [Nat.add_zero] at hd hc
    obtain ⟨h1, h2⟩ := inProgress_spec st hp
    rw [show fuel + (k + 1) = (fuel + k) + 1 by omega, pollLoop, hc]
    simp only [hd, h1, h2, if_false]
    rw [ih fuel (i + 1) _ (fun j hj => by rw [show i + 1 + j = i + (j + 1) by omega]; exact hctx _ (by omega))
      (fun j hj => by rw [show i + 1 + j = i + (j + 1) by omega]; exact hst _ (by omega))]
    simp [pollEvents, Nat.add_assoc, Nat.add_comm 1 k]

/-- When the target list is not empty and the uploader, `ListContact` (if consulted)
and `CreateDeploymentJob` succeed, `Deploy` enters the polling loop for the created job
after events that hold neither a describe call nor a sleep. -/
theorem Deploy_submit (env : Env) (config : AliyunCASDeployDeployerConfig)
    (certPem privkeyPem : String) (upres : Uploader.UploadResult) (jobId : Option Int)
    (hres : config.ResourceIds ≠ [])
    (hup : env.Upload certPem privkeyPem = .ok upres)
    (hlist : config.ContactIds = [] → ∃ l, env.ListContact = .ok l)
    (hcreate : ∀ req, env.CreateDeploymentJob req = .ok jobId) :
    ∃ tr0, describeCalls tr0 = 0 ∧ sleeps tr0 = 0 ∧
      ∀ fuel, Deploy env config fuel certPem privkeyPem = pollLoop env jobId fuel 0 tr0 := by
  have hres' : ¬ config.ResourceIds.length = 0 := by
    simpa [List.length_eq_zero] using hres
  by_cases hc : config.ContactIds = []
  · obtain ⟨l, hl⟩ := hlist hc
    cases l with
    | nil =>
      refine ⟨[Event.upload certPem privkeyPem, Event.listContact 1 1,
        Event.createDeploymentJob
          { Name := "certimate-" ++ fmtD env.nowMilli, JobType := "user",
            CertIds := upres.CertId,
            ResourceIds := String.intercalate "," config.ResourceIds,
            ContactIds := String.intercalate "," config.ContactIds }], rfl, rfl, ?_⟩
      intro fuel
      simp only [Deploy, hres', if_false, hup, hc, List.length_nil, if_true, hl, hcreate]
      rfl
    | cons contact rest =>
      refine ⟨[Event.upload certPem privkeyPem, Event.listContact 1 1,
        Event.createDeploymentJob
          { Name := "certimate-" ++ fmtD env.nowMilli, JobType := "user",
            CertIds := upres.CertId,
            ResourceIds := String.intercalate "," config.ResourceIds,
            ContactIds := String.intercalate "," [contact] }], rfl, rfl, ?_⟩
      intro fuel
      simp only [Deploy, hres', if_false, hup, hc, List.length_nil, if_true, hl, hcreate]
      rfl
  · have hc' : ¬ config.ContactIds.length = 0 := by
      simpa [List.length_eq_zero] using hc
    refine ⟨[Event.upload certPem privkeyPem,
      Event.createDeploymentJob
        { Name := "certimate-" ++ fmtD env.nowMilli, JobType := "user", CertIds := upres.CertId,
          ResourceIds := String.intercalate "," config.ResourceIds,
          ContactIds := String.intercalate "," config.ContactIds }], rfl, rfl, ?_⟩
    intro fuel
    simp only [Deploy, hres', if_false, hup, hc', hcreate]
    rfl

/-- `Deploy` after `k` in-progress reads: it stands at iteration `k` of the loop with the
fuel that is left. -/
theorem Deploy_after_inProgress (env : Env) (config : AliyunCASDeployDeployerConfig)
    (certPem privkeyPem : String) (upres : Uploader.UploadResult) (jobId : Option Int)
    (k fuel : Nat)
    (hres : config.ResourceIds ≠ [])
    (hup : env.Upload certPem privkeyPem = .ok upres)
    (hlist : config.ContactIds = [] → ∃ l, env.ListContact = .ok l)
    (hcreate : ∀ req, env.CreateDeploymentJob req = .ok jobId)
    (hctx : ∀ j, j < k → env.ctxErr j = none)
    (hpending : ∀ j, j < k → ∃ st, env.DescribeDeploymentJob jobId j = .ok st ∧
      inProgress st = true) :
    ∃ tr0, describeCalls tr0 = 0 ∧ sleeps tr0 = 0 ∧
      Deploy env config (fuel + k) certPem privkeyPem =
        pollLoop env jobId fuel k (tr0 ++ pollEvents jobId k) := by
  obtain ⟨tr0, h1, h2, h3⟩ :=
    Deploy_submit env config certPem privkeyPem upres jobId hres hup hlist hcreate
  refine ⟨tr0, h1, h2, ?_⟩
  rw [h3, pollLoop_inProgress env jobId k fuel 0 tr0
    (fun j hj => by simpa using hctx j hj) (fun j hj => by simpa using hpending j hj)]
  simp

theorem inProgress_of_not (st : Option String)
    (h1 : ¬ (st = none ∨ st = some "editing"))
    (h2 : ¬ (st = some "success" ∨ st = some "error")) : inProgress st = true := by
  simp only [inProgress, Bool.and_eq_true, bne_iff_ne, ne_eq]
  tauto

/-- A successful run of the loop from iteration `i` went through some number `k` of
in-progress reads and ended with the read number `i + k` of the job, which answered
`"success"` or `"error"`; that read is the last event. -/
theorem pollLoop_ok_only (env : Env) (jobId : Option Int) :
    ∀ (fuel i : Nat) (tr tr' : List Event) (r : DeployResult),
      pollLoop env jobId fuel i tr = some (.ok r, tr') →
      ∃ k, tr' = tr ++ pollEvents jobId k ++ [Event.describeDeploymentJob jobId] ∧
        (env.DescribeDeploymentJob jobId (i + k) = .ok (some "success") ∨
          env.DescribeDeploymentJob jobId (i + k) = .ok (some "error")) ∧
        (∀ n, n < k → ∃ st, env.DescribeDeploymentJob jobId (i + n) = .ok st ∧
          inProgress st = true) := by
  intro fuel
  induction fuel with
  | zero => intro i tr tr' r h; simp [pollLoop] at h
  | succ fuel ih =>
    intro i tr tr' r h
    rw [pollLoop] at h
    split at h
    · simp at h
    · simp only at h
      split at h
      · simp at h
      · next status hst =>
        split at h
        · simp at h
        · next hne =>
          split at h
          · next hterm =>
            simp only [Option.some.injEq, Prod.mk.injEq] at h
            refine ⟨0, ?_, ?_, ?_⟩
            · simp [pollEvents, ← h.2]
            · rcases hterm with hterm | hterm
              · left; simp [hst, hterm]
              · right; simp [hst, hterm]
            · intro n hn; omega
          · next hnt =>
            obtain ⟨k, hk1, hk2, hk3⟩ := ih _ _ _ _ h
            refine ⟨k + 1, ?_, ?_, ?_⟩
            · simp [hk1, pollEvents]
            · rw [show i + (k + 1) = i + 1 + k by omega]
              exact hk2
            · intro n hn
              cases n with
              | zero => exact ⟨status, by simpa using hst, inProgress_of_not status hne hnt⟩
              | succ n =>
                rw [show i + (n + 1) = i + 1 + n by omega]
                exact hk3 n (by omega)

/-- A successful `Deploy` submitted a job and polled it: the uploader succeeded, a
`CreateDeploymentJob` request carrying the uploaded certificate identifier was answered
with a job, every status read but the last of that job was in progress, and the last
read of that job, which is the last event, answered `"success"` or `"error"`. -/
theorem Deploy_ok_only (env : Env) (config : AliyunCASDeployDeployerConfig) (fuel : Nat)
    (certPem privkeyPem : String) (r : DeployResult) (tr : List Event)
    (h : Deploy env config fuel certPem privkeyPem = some (.ok r, tr)) :
    ∃ (upres : Uploader.UploadResult) (req : CreateDeploymentJobRequest)
      (jobId : Option Int) (tr0 : List Event) (k : Nat),
      env.Upload certPem privkeyPem = .ok upres ∧
      req.CertIds = upres.CertId ∧
      env.CreateDeploymentJob req = .ok jobId ∧
      Event.createDeploymentJob req ∈ tr0 ∧
      describeCalls tr0 = 0 ∧
      tr = tr0 ++ pollEvents jobId k ++ [Event.describeDeploymentJob jobId] ∧
      (env.DescribeDeploymentJob jobId k = .ok (some "success") ∨
        env.DescribeDeploymentJob jobId k = .ok (some "error")) ∧
      (∀ n, n < k → ∃ st, env.DescribeDeploymentJob jobId n = .ok st ∧
        inProgress st = true) := by
  have finish : ∀ (upres : Uploader.UploadResult) (req : CreateDeploymentJobRequest)
      (jobId : Option Int) (tr0 : List Event),
      env.Upload certPem privkeyPem = .ok upres → req.CertIds = upres.CertId →
      env.CreateDeploymentJob req = .ok jobId → Event.createDeploymentJob req ∈ tr0 →
      describeCalls tr0 = 0 → pollLoop env jobId fuel 0 tr0 = some (.ok r, tr) →
      ∃ (upres : Uploader.UploadResult) (req : CreateDeploymentJobRequest)
        (jobId : Option Int) (tr0 : List Event) (k : Nat),
        env.Upload certPem privkeyPem = .ok upres ∧
        req.CertIds = upres.CertId ∧
        env.CreateDeploymentJob req = .ok jobId ∧
        Event.createDeploymentJob req ∈ tr0 ∧
        describeCalls tr0 = 0 ∧
        tr = tr0 ++ pollEvents jobId k ++ [Event.describeDeploymentJob jobId] ∧
        (env.DescribeDeploymentJob jobId k = .ok (some "success") ∨
          env.DescribeDeploymentJob jobId k = .ok (some "error")) ∧
        (∀ n, n < k → ∃ st, env.DescribeDeploymentJob jobId n = .ok st ∧
          inProgress st = true) := by
    intro upres req jobId tr0 hup hcert hcreate hmem hd hloop
    obtain ⟨k, hk1, hk2, hk3⟩ := pollLoop_ok_only env jobId fuel 0 tr0 tr r hloop
    refine ⟨upres, req, jobId, tr0, k, hup, hcert, hcreate, hmem, hd, hk1, ?_, ?_⟩
    · simpa using hk2
    · intro n hn
      simpa using hk3 n hn
  by_cases hres : config.ResourceIds.length = 0
  · simp [Deploy, hres] at h
  rcases hup : env.Upload certPem privkeyPem with err | upres
  · simp [Deploy, hres, hup] at h
  rw [← hup]
  by_cases hc : config.ContactIds.length = 0
  · rcases hl : env.ListContact with err | l
    · simp [Deploy, hres, hup, hc, hl] at h
    rcases l with _ | ⟨contact, rest⟩
    · rcases hcr : env.CreateDeploymentJob
          { Name := "certimate-" ++ fmtD env.nowMilli, JobType := "user",
            CertIds := upres.CertId,
            ResourceIds := String.intercalate "," config.ResourceIds,
            ContactIds := String.intercalate "," config.ContactIds } with err | jobId
      · simp [Deploy, hres, hup, hc, hl, hcr] at h
      simp only [Deploy, hres, if_false, hup, hc, if_true, hl, hcr] at h
      refine finish upres _ jobId _ hup rfl hcr ?_ ?_ h
      · simp
      · simp [describeCalls, Event.isDescribe]
    · rcases hcr : env.CreateDeploymentJob
          { Name := "certimate-" ++ fmtD env.nowMilli, JobType := "user",
            CertIds := upres.CertId,
            ResourceIds := String.intercalate "," config.ResourceIds,
            ContactIds := String.intercalate "," [contact] } with err | jobId
      · simp [Deploy, hres, hup, hc, hl, hcr] at h
      simp only [Deploy, hres, if_false, hup, hc, if_true, hl, hcr] at h
      refine finish upres _ jobId _ hup rfl hcr ?_ ?_ h
      · simp
      · simp [describeCalls, Event.isDescribe]
  · rcases hcr : env.CreateDeploymentJob
        { Name := "certimate-" ++ fmtD env.nowMilli, JobType := "user",
          CertIds := upres.CertId,
          ResourceIds := String.intercalate "," config.ResourceIds,
          ContactIds := String.intercalate "," config.ContactIds } with err | jobId
    · simp [Deploy, hres, hup, hc, hcr] at h
    simp only [Deploy, hres, if_false, hup, hc, hcr] at h
    refine finish upres _ jobId _ hup rfl hcr ?_ ?_ h
    · simp
    · simp [describeCalls, Event.isDescribe]

/-- C2: for every K, if the context is not cancelled, the job is submitted, and
`DescribeDeploymentJob` answers an in-progress status on its first K calls and
`"success"` on call K + 1, then for every fuel of at least K + 1 `Deploy` returns the
success result with no error; its events are those of the submission, K describe-sleep
pairs and one last describe call, so exactly K + 1 `DescribeDeploymentJob` calls. -/
theorem C2_pending_then_success (env : Env) (config : AliyunCASDeployDeployerConfig)
    (certPem privkeyPem : String) (upres : Uploader.UploadResult) (jobId : Option Int)
    (K fuel : Nat)
    (hres : config.ResourceIds ≠ [])
    (hup : env.Upload certPem privkeyPem = .ok upres)
    (hlist : config.ContactIds = [] → ∃ l, env.ListContact = .ok l)
    (hcreate : ∀ req, env.CreateDeploymentJob req = .ok jobId)
    (hctx : ∀ j, j ≤ K → env.ctxErr j = none)
    (hpending : ∀ j, j < K → ∃ st, env.DescribeDeploymentJob jobId j = .ok st ∧
      inProgress st = true)
    (hsuccess : env.DescribeDeploymentJob jobId K = .ok (some "success"))
    (hfuel : K + 1 ≤ fuel) :
    ∃ tr0, describeCalls tr0 = 0 ∧
      Deploy env config fuel certPem privkeyPem =
        some (.ok {}, tr0 ++ pollEvents jobId K ++ [Event.describeDeploymentJob jobId]) ∧
      describeCalls (tr0 ++ pollEvents jobId K ++ [Event.describeDeploymentJob jobId]) =
        K + 1 := by
  obtain ⟨tr0, h1, -, h3⟩ := Deploy_after_inProgress env config certPem privkeyPem upres jobId K
    (fuel - K - 1 + 1) hres hup hlist hcreate (fun j hj => hctx j (by omega)) hpending
  rw [show fuel - K - 1 + 1 + K = fuel by omega] at h3
  refine ⟨tr0, h1, ?_, ?_⟩
  · rw [h3, pollLoop, hctx K (le_refl _)]
    simp [hsuccess]
  · rw [describeCalls_append, describeCalls_append, h1, describeCalls_pollEvents]
    simp [describeCalls, Event.isDescribe]

/-- Witness of C2: three `"pending"` reads, then `"success"`. -/
theorem C2_pending_then_success_witness :
    ∃ tr0, describeCalls tr0 = 0 ∧
      Deploy (scripted 3 "success" none) oneResource 4 "CERT-A" "KEY-A" =
        some (.ok {}, tr0 ++ pollEvents (some 42) 3 ++ [Event.describeDeploymentJob (some 42)]) ∧
      describeCalls (tr0 ++ pollEvents (some 42) 3 ++ [Event.describeDeploymentJob (some 42)]) =
        3 + 1 :=
  C2_pending_then_success (scripted 3 "success" none) oneResource "CERT-A" "KEY-A"
    { CertId := "9001", CertName := "certimate-1" } (some 42) 3 4
    (by decide) rfl (fun _ => ⟨_, rfl⟩) (fun _ => rfl) (fun _ _ => rfl)
    (fun j hj => ⟨some "pending", by simp [scripted, hj], by decide⟩)
    rfl (by decide)

/-- C6: whatever the certificate, key, context and collaborators, `Deploy` on a
configuration whose `ResourceIds` is empty returns no result and the error
"config `resourceIds` is required", and no event has happened: no call of `Upload`,
`ListContact`, `CreateDeploymentJob` or `DescribeDeploymentJob`, and no sleep. -/
theorem C6_empty_resourceIds_rejected_first (env : Env)
    (config : AliyunCASDeployDeployerConfig) (fuel : Nat) (certPem privkeyPem : String)
    (hempty : config.ResourceIds = []) :
    Deploy env config fuel certPem privkeyPem =
      some (.error "config `resourceIds` is required", []) := by
  simp [Deploy, hempty]

/-- Witness of C6: the configuration without target resources, no fuel at all. -/
theorem C6_empty_resourceIds_rejected_first_witness :
    noResource.ResourceIds = [] ∧
    Deploy (scripted 0 "success" none) noResource 0 "CERT-A" "KEY-A" =
      some (.error "config `resourceIds` is required", []) :=
  ⟨rfl, C6_empty_resourceIds_rejected_first (scripted 0 "success" none) noResource 0
    "CERT-A" "KEY-A" rfl⟩

/-- C7: if, after K in-progress reads (K ≥ 0) with the context not cancelled, a
`DescribeDeploymentJob` call answers `"editing"`, then `Deploy` returns no result and
the status error at once: the call that read `"editing"` is the last event, so no
further call and no sleep follow it; there are K + 1 describe calls and K sleeps. -/
theorem C7_editing_fails_at_once (env : Env) (config : AliyunCASDeployDeployerConfig)
    (certPem privkeyPem : String) (upres : Uploader.UploadResult) (jobId : Option Int)
    (K fuel : Nat)
    (hres : config.ResourceIds ≠ [])
    (hup : env.Upload certPem privkeyPem = .ok upres)
    (hlist : config.ContactIds = [] → ∃ l, env.ListContact = .ok l)
    (hcreate : ∀ req, env.CreateDeploymentJob req = .ok jobId)
    (hctx : ∀ j, j ≤ K → env.ctxErr j = none)
    (hpending : ∀ j, j < K → ∃ st, env.DescribeDeploymentJob jobId j = .ok st ∧
      inProgress st = true)
    (hediting : env.DescribeDeploymentJob jobId K = .ok (some "editing"))
    (hfuel : K + 1 ≤ fuel) :
    ∃ tr0, describeCalls tr0 = 0 ∧ sleeps tr0 = 0 ∧
      Deploy env config fuel certPem privkeyPem =
        some (.error "部署任务状态异常",
          tr0 ++ pollEvents jobId K ++ [Event.describeDeploymentJob jobId]) ∧
      describeCalls (tr0 ++ pollEvents jobId K ++ [Event.describeDeploymentJob jobId]) =
        K + 1 ∧
      sleeps (tr0 ++ pollEvents jobId K ++ [Event.describeDeploymentJob jobId]) = K := by
  obtain ⟨tr0, h1, h2, h3⟩ := Deploy_after_inProgress env config certPem privkeyPem upres jobId K
    (fuel - K - 1 + 1) hres hup hlist hcreate (fun j hj => hctx j (by omega)) hpending
  rw [show fuel - K - 1 + 1 + K = fuel by omega] at h3
  refine ⟨tr0, h1, h2, ?_, ?_, ?_⟩
  · rw [h3, pollLoop, hctx K (le_refl _)]
    simp [hediting]
  · rw [describeCalls_append, describeCalls_append, h1, describeCalls_pollEvents]
    simp [describeCalls, Event.isDescribe]
  · rw [sleeps_append, sleeps_append, h2, sleeps_pollEvents]
    simp [sleeps, Event.isSleep]

/-- Witness of C7: two `"pending"` reads, then `"editing"`. -/
theorem C7_editing_fails_at_once_witness :
    ∃ tr0, describeCalls tr0 = 0 ∧ sleeps tr0 = 0 ∧
      Deploy (scripted 2 "editing" none) oneResource 3 "CERT-A" "KEY-A" =
        some (.error "部署任务状态异常",
          tr0 ++ pollEvents (some 42) 2 ++ [Event.describeDeploymentJob (some 42)]) ∧
      describeCalls (tr0 ++ pollEvents (some 42) 2 ++ [Event.describeDeploymentJob (some 42)]) =
        2 + 1 ∧
      sleeps (tr0 ++ pollEvents (some 42) 2 ++ [Event.describeDeploymentJob (some 42)]) = 2 :=
  C7_editing_fails_at_once (scripted 2 "editing" none) oneResource "CERT-A" "KEY-A"
    { CertId := "9001", CertName := "certimate-1" } (some 42) 2 3
    (by decide) rfl (fun _ => ⟨_, rfl⟩) (fun _ => rfl) (fun _ _ => rfl)
    (fun j hj => ⟨some "pending", by simp [scripted, hj], by decide⟩)
    rfl (by decide)

/-- C8: if the loop is entered and the context turns out cancelled at the top of
iteration j (after j reads, j ≥ 0, that all answered an in-progress status with the
context not yet cancelled), then `Deploy` returns no result and the error of the
context, and the events hold exactly those j `DescribeDeploymentJob` calls: none is
issued in or after iteration j.  For j = 0 there is no status call at all. -/
theorem C8_cancellation_stops_polling (env : Env) (config : AliyunCASDeployDeployerConfig)
    (certPem privkeyPem : String) (upres : Uploader.UploadResult) (jobId : Option Int)
    (j fuel : Nat) (cancelled : String)
    (hres : config.ResourceIds ≠ [])
    (hup : env.Upload certPem privkeyPem = .ok upres)
    (hlist : config.ContactIds = [] → ∃ l, env.ListContact = .ok l)
    (hcreate : ∀ req, env.CreateDeploymentJob req = .ok jobId)
    (hctx : ∀ n, n < j → env.ctxErr n = none)
    (hpending : ∀ n, n < j → ∃ st, env.DescribeDeploymentJob jobId n = .ok st ∧
      inProgress st = true)
    (hcancel : env.ctxErr j = some cancelled)
    (hfuel : j + 1 ≤ fuel) :
    ∃ tr0, describeCalls tr0 = 0 ∧
      Deploy env config fuel certPem privkeyPem =
        some (.error cancelled, tr0 ++ pollEvents jobId j) ∧
      describeCalls (tr0 ++ pollEvents jobId j) = j := by
  obtain ⟨tr0, h1, -, h3⟩ := Deploy_after_inProgress env config certPem privkeyPem upres jobId j
    (fuel - j - 1 + 1) hres hup hlist hcreate hctx hpending
  rw [show fuel - j - 1 + 1 + j = fuel by omega] at h3
  refine ⟨tr0, h1, ?_, ?_⟩
  · rw [h3, pollLoop, hcancel]
  · rw [describeCalls_append, h1, describeCalls_pollEvents, Nat.zero_add]

/-- Witness of C8: the context is cancelled during the second sleep, with the job still
pending. -/
theorem C8_cancellation_stops_polling_witness :
    ∃ tr0, describeCalls tr0 = 0 ∧
      Deploy (scripted 5 "success" (some 2)) oneResource 3 "CERT-A" "KEY-A" =
        some (.error "context canceled", tr0 ++ pollEvents (some 42) 2) ∧
      describeCalls (tr0 ++ pollEvents (some 42) 2) = 2 :=
  C8_cancellation_stops_polling (scripted 5 "success" (some 2)) oneResource "CERT-A" "KEY-A"
    { CertId := "9001", CertName := "certimate-1" } (some 42) 2 3 "context canceled"
    (by decide) rfl (fun _ => ⟨_, rfl⟩) (fun _ => rfl)
    (fun n hn => by simp [scripted]; omega)
    (fun n hn => ⟨some "pending", by simp [scripted]; omega, by decide⟩)
    rfl (by decide)

/-- C3, as stated, is false: when the first status read is `"error"`, `Deploy` returns
the success result with no error, after the same events as when the read is
`"success"`. -/
theorem C3_counterexample :
    Deploy (scripted 0 "error" none) oneContact 1 "CERT-A" "KEY-A" =
      some (.ok {},
        [Event.upload "CERT-A" "KEY-A",
         Event.createDeploymentJob
           { Name := "certimate-1700000000000", JobType := "user", CertIds := "9001",
             ResourceIds := "res-1", ContactIds := "1001" },
         Event.describeDeploymentJob (some 42)]) ∧
    Deploy (scripted 0 "error" none) oneContact 1 "CERT-A" "KEY-A" =
      Deploy (scripted 0 "success" none) oneContact 1 "CERT-A" "KEY-A" := by
  constructor <;> rfl

/-- C3, amended: the poller stops at a terminal vendor status.  If, after K in-progress
reads with the context not cancelled, `DescribeDeploymentJob` answers `"success"` or
`"error"`, the loop ends with that read and `Deploy` returns the `DeployResult` with no
error, the same for both statuses.  Conversely, in any environment, a `Deploy` that
returns the success result has created a job for the uploaded certificate and its last
event is a status read of that very job which answered `"success"` or `"error"`, all
earlier reads of the job having been in progress. -/
theorem C3_terminal_status_ends_polling (env : Env) (config : AliyunCASDeployDeployerConfig)
    (certPem privkeyPem : String) (upres : Uploader.UploadResult) (jobId : Option Int)
    (K fuel : Nat) (final : String)
    (hres : config.ResourceIds ≠ [])
    (hup : env.Upload certPem privkeyPem = .ok upres)
    (hlist : config.ContactIds = [] → ∃ l, env.ListContact = .ok l)
    (hcreate : ∀ req, env.CreateDeploymentJob req = .ok jobId)
    (hctx : ∀ j, j ≤ K → env.ctxErr j = none)
    (hpending : ∀ j, j < K → ∃ st, env.DescribeDeploymentJob jobId j = .ok st ∧
      inProgress st = true)
    (hfinal : env.DescribeDeploymentJob jobId K = .ok (some final))
    (hterminal : final = "success" ∨ final = "error")
    (hfuel : K + 1 ≤ fuel) :
    (∃ tr0, describeCalls tr0 = 0 ∧ sleeps tr0 = 0 ∧
      Deploy env config fuel certPem privkeyPem =
        some (.ok {}, tr0 ++ pollEvents jobId K ++ [Event.describeDeploymentJob jobId])) ∧
    (∀ (env' : Env) (config' : AliyunCASDeployDeployerConfig) (fuel' : Nat)
        (certPem' privkeyPem' : String) (r : DeployResult) (tr : List Event),
      Deploy env' config' fuel' certPem' privkeyPem' = some (.ok r, tr) →
      ∃ (upres' : Uploader.UploadResult) (req : CreateDeploymentJobRequest)
        (jobId' : Option Int) (tr0 : List Event) (k : Nat),
        env'.Upload certPem' privkeyPem' = .ok upres' ∧
        req.CertIds = upres'.CertId ∧
        env'.CreateDeploymentJob req = .ok jobId' ∧
        Event.createDeploymentJob req ∈ tr0 ∧
        describeCalls tr0 = 0 ∧
        tr = tr0 ++ pollEvents jobId' k ++ [Event.describeDeploymentJob jobId'] ∧
        (env'.DescribeDeploymentJob jobId' k = .ok (some "success") ∨
          env'.DescribeDeploymentJob jobId' k = .ok (some "error")) ∧
        (∀ n, n < k → ∃ st, env'.DescribeDeploymentJob jobId' n = .ok st ∧
          inProgress st = true)) := by
  constructor
  · obtain ⟨tr0, h1, h2, h3⟩ := Deploy_after_inProgress env config certPem privkeyPem upres
      jobId K (fuel - K - 1 + 1) hres hup hlist hcreate (fun j hj => hctx j (by omega)) hpending
    rw [show fuel - K - 1 + 1 + K = fuel by omega] at h3
    refine ⟨tr0, h1, h2, ?_⟩
    rw [h3, pollLoop, hctx K (le_refl _)]
    rcases hterminal with h | h <;> simp [hfinal, h]
  · intro env' config' fuel' certPem' privkeyPem' r tr h
    exact Deploy_ok_only env' config' fuel' certPem' privkeyPem' r tr h

/-- Witness of C3 (amended): one `"pending"` read, then `"error"`, with a configured
contact. -/
theorem C3_terminal_status_ends_polling_witness :
    ∃ tr0, describeCalls tr0 = 0 ∧ sleeps tr0 = 0 ∧
      Deploy (scripted 1 "error" none) oneContact 2 "CERT-A" "KEY-A" =
        some (.ok {}, tr0 ++ pollEvents (some 42) 1 ++ [Event.describeDeploymentJob (some 42)]) :=
  (C3_terminal_status_ends_polling (scripted 1 "error" none) oneContact "CERT-A" "KEY-A"
    { CertId := "9001", CertName := "certimate-1" } (some 42) 1 2 "error"
    (by decide) rfl (fun h => absurd h (by decide)) (fun _ => rfl) (fun _ _ => rfl)
    (fun j hj => ⟨some "pending", by simp [scripted]; omega, by decide⟩)
    rfl (Or.inr rfl) (by decide)).1

end AliyunCASDeploy

/-! ## Specified properties of the DNS applicants -/

namespace Applicant

theorem provide_fst {Cfg Prov Cert : Type} (lego : Lego Cfg Prov Cert) (option : ApplyOption)
    (config : Cfg) : (provide lego option config).1 = outcome lego option config := by
  unfold provide outcome
  cases lego.NewDNSProviderConfig config <;> rfl

theorem provide_head {Cfg Prov Cert : Type} (lego : Lego Cfg Prov Cert) (option : ApplyOption)
    (config : Cfg) :
    (provide lego option config).2.head? = some (Step.newDNSProviderConfig config) := by
  unfold provide
  cases lego.NewDNSProviderConfig config <;> rfl

/-- C4, as stated, is false, for the AWS applicant: with a decoder that rejects the
blob and leaves the credential struct empty, and a `route53` library that builds its
provider without static credentials, `Apply` returns a certificate and no error, having
built the provider from the empty credentials. -/
theorem C4_counterexample :
    (rejectAll "not json"
        ({ AccessKeyId := "", SecretAccessKey := "", Region := "", HostedZoneId := "" } :
          AwsAccess)).2 ≠ none ∧
    awsApplicant.Apply rejectAll route53Library { Access := "not json", Timeout := 0 } =
      (.ok "CERT",
        [Step.newDNSProviderConfig
            { AccessKeyID := "", SecretAccessKey := "", Region := "", HostedZoneID := "",
              PropagationTimeout := 120000000000 },
         Step.apply "route53"]) := by
  exact ⟨by decide, rfl⟩

/-- C4, amended: for each of the four applicants (AWS, Cloudflare, GoDaddy, PowerDNS),
when decoding the blob fails the error is dropped.  `Apply` still calls the vendor's
`NewDNSProviderConfig`, first of all, on a configuration whose credential fields are
whatever the decoder left in the struct; what `Apply` returns is what that call and the
following `apply` return, so it fails only if one of them fails; and the whole run is
the one obtained from the same decoder reporting no error. -/
theorem C4_decode_error_is_dropped {Prov Cert : Type} (option : ApplyOption)
    (awsDecode : String → AwsAccess → AwsAccess × Option String)
    (awsLego : Lego Route53Config Prov Cert)
    (cfDecode : String → CloudflareAccess → CloudflareAccess × Option String)
    (cfLego : Lego CloudflareConfig Prov Cert)
    (gdDecode : String → GodaddyAccess → GodaddyAccess × Option String)
    (gdLego : Lego GodaddyConfig Prov Cert)
    (pdDecode : String → PdnsAccess → PdnsAccess × Option String)
    (urlParse : String → Except String String)
    (pdLego : Lego PdnsConfig Prov Cert)
    (_haws : (awsDecode option.Access
      { AccessKeyId := "", SecretAccessKey := "", Region := "", HostedZoneId := "" }).2 ≠ none)
    (_hcf : (cfDecode option.Access { DnsApiToken := "" }).2 ≠ none)
    (_hgd : (gdDecode option.Access { ApiKey := "", ApiSecret := "" }).2 ≠ none)
    (_hpd : (pdDecode option.Access { ApiUrl := "", ApiKey := "" }).2 ≠ none) :
    (∃ config : Route53Config,
      config.AccessKeyID = (awsDecode option.Access
        { AccessKeyId := "", SecretAccessKey := "", Region := "",
          HostedZoneId := "" }).1.AccessKeyId ∧
      config.SecretAccessKey = (awsDecode option.Access
        { AccessKeyId := "", SecretAccessKey := "", Region := "",
          HostedZoneId := "" }).1.SecretAccessKey ∧
      (awsApplicant.Apply awsDecode awsLego option).2.head? =
        some (Step.newDNSProviderConfig config) ∧
      (awsApplicant.Apply awsDecode awsLego option).1 = outcome awsLego option config ∧
      awsApplicant.Apply awsDecode awsLego option =
        awsApplicant.Apply (ignoreError awsDecode) awsLego option) ∧
    (∃ config : CloudflareConfig,
      config.AuthToken = (cfDecode option.Access { DnsApiToken := "" }).1.DnsApiToken ∧
      (cloudflareApplicant.Apply cfDecode cfLego option).2.head? =
        some (Step.newDNSProviderConfig config) ∧
      (cloudflareApplicant.Apply cfDecode cfLego option).1 = outcome cfLego option config ∧
      cloudflareApplicant.Apply cfDecode cfLego option =
        cloudflareApplicant.Apply (ignoreError cfDecode) cfLego option) ∧
    (∃ config : GodaddyConfig,
      config.APIKey = (gdDecode option.Access { ApiKey := "", ApiSecret := "" }).1.ApiKey ∧
      config.APISecret = (gdDecode option.Access { ApiKey := "", ApiSecret := "" }).1.ApiSecret ∧
      (godaddyApplicant.Apply gdDecode gdLego option).2.head? =
        some (Step.newDNSProviderConfig config) ∧
      (godaddyApplicant.Apply gdDecode gdLego option).1 = outcome gdLego option config ∧
      godaddyApplicant.Apply gdDecode gdLego option =
        godaddyApplicant.Apply (ignoreError gdDecode) gdLego option) ∧
    (∃ config : PdnsConfig,
      config.APIKey = (pdDecode option.Access { ApiUrl := "", ApiKey := "" }).1.ApiKey ∧
      config.Host =
        (urlParse (pdDecode option.Access { ApiUrl := "", ApiKey := "" }).1.ApiUrl).toOption ∧
      (powerdnsApplicant.Apply pdDecode urlParse pdLego option).2.head? =
        some (Step.newDNSProviderConfig config) ∧
      (powerdnsApplicant.Apply pdDecode urlParse pdLego option).1 =
        outcome pdLego option config ∧
      powerdnsApplicant.Apply pdDecode urlParse pdLego option =
        powerdnsApplicant.Apply (ignoreError pdDecode) urlParse pdLego option) := by
  refine ⟨?_, ?_, ?_, ?_⟩
  · refine ⟨_, ?_, ?_, provide_head _ _ _, provide_fst _ _ _, rfl⟩
    · split <;> rfl
    · split <;> rfl
  · refine ⟨_, ?_, provide_head _ _ _, provide_fst _ _ _, rfl⟩
    split <;> rfl
  · refine ⟨_, ?_, ?_, provide_head _ _ _, provide_fst _ _ _, rfl⟩
    · split <;> rfl
    · split <;> rfl
  · refine ⟨_, ?_, ?_, provide_head _ _ _, provide_fst _ _ _, rfl⟩
    · split <;> rfl
    · split <;> rfl

/-- Witness of C4 (amended): a decoder that rejects the blob; the AWS provider is asked
for with empty credentials. -/
theorem C4_decode_error_is_dropped_witness :
    ∃ config : Route53Config,
      config.AccessKeyID = "" ∧ config.SecretAccessKey = "" ∧
      (awsApplicant.Apply rejectAll route53Library
          { Access := "not json", Timeout := 30 }).2.head? =
        some (Step.newDNSProviderConfig config) :=
  match (C4_decode_error_is_dropped { Access := "not json", Timeout := 30 }
    rejectAll route53Library rejectAll cloudflareLibrary rejectAll godaddyLibrary
    rejectAll (fun url => .ok url) pdnsLibrary
    (by decide) (by decide) (by decide) (by decide)).1 with
  | ⟨config, h1, h2, h3, _, _⟩ => ⟨config, h1, h2, h3⟩

end Applicant
